import Mathlib

/-! # Request signing of the BApp payment client (`src/api.go`)

A shallow embedding of the signing and verification code of package `bapp`:
`signParams`, `convertParams` and `Service.CalcSign`, and of the request building and
response handling of `Service.OrderCreate` and `Service.OrderQuery`, together with
models of the Go library routines they call (`sort.Strings`, `crypto/md5`,
`encoding/hex`, `strconv.FormatInt`, and the `encoding/json` round trip). The clock and
the HTTP transport are inputs of the two order functions.

Conventions.
* A Go `string` is an immutable sequence of bytes: `GoString := List UInt8`.
* A Go `map[string]T` is an association list `List (GoString × T)`; the order of the
  list stands for the (unspecified) iteration order of `range`, and a list that
  denotes a Go map has pairwise distinct keys.
* 32-bit words of MD5 are natural numbers reduced `% 2^32`.
-/

namespace Bapp

/-! ## Strings and maps -/

/-- A Go string: a sequence of bytes. -/
abbrev GoString := List UInt8

/-- The bytes of a Go string literal (Go source text is UTF-8). -/
def lit (s : String) : GoString := s.data.flatMap String.utf8EncodeChar

/-- The parameter map `map[string]string`. -/
abbrev Params := List (GoString × GoString)

/-- The key list of a map, in iteration order. -/
def mapKeys {β : Type} (m : List (GoString × β)) : List GoString := m.map Prod.fst

/-- The lookup `m[k]` with presence flag (`v, ok := m[k]`). -/
def mapGet? {β : Type} : List (GoString × β) → GoString → Option β
  | [], _ => none
  | (k', v) :: rest, k => if k' = k then some v else mapGet? rest k

/-- The index expression `params[k]` of a `map[string]string`: the zero value `""`
when the key is absent. -/
def mapIndex (m : Params) (k : GoString) : GoString :=
  match mapGet? m k with
  | some v => v
  | none => []

/-- The assignment `m[k] = v`: overwrite the entry of `k` when present, add one otherwise. -/
def mapSet {β : Type} : List (GoString × β) → GoString → β → List (GoString × β)
  | [], k, v => [(k, v)]
  | (k', v') :: rest, k, v =>
    if k' = k then (k', v) :: rest else (k', v') :: mapSet rest k v

/-- The statement `delete(m, k)`. -/
def mapDelete {β : Type} (m : List (GoString × β)) (k : GoString) : List (GoString × β) :=
  m.filter (fun kv => decide (kv.1 ≠ k))

/-! ## `sort.Strings` -/

/-- Go's string comparison `a <= b`: lexicographic on bytes. -/
def strLe : GoString → GoString → Bool
  | [], _ => true
  | _ :: _, [] => false
  | a :: as, b :: bs =>
    if a.toNat < b.toNat then true
    else if b.toNat < a.toNat then false
    else strLe as bs

/-- Go's string comparison `a < b`. -/
def strLt (a b : GoString) : Bool := strLe a b && !(strLe b a)

/-- The result of `sort.Strings`: the keys rearranged into ascending order. (Which
algorithm the library runs is immaterial: equal strings are indistinguishable.) -/
def sortStrings (keys : List GoString) : List GoString :=
  keys.insertionSort (fun a b => strLe a b = true)

/-! ## `crypto/md5` (RFC 1321) -/

/-- Per-round left-rotation amounts. -/
def md5Shift : List Nat :=
  [7, 12, 17, 22, 7, 12, 17, 22, 7, 12, 17, 22, 7, 12, 17, 22,
   5, 9, 14, 20, 5, 9, 14, 20, 5, 9, 14, 20, 5, 9, 14, 20,
   4, 11, 16, 23, 4, 11, 16, 23, 4, 11, 16, 23, 4, 11, 16, 23,
   6, 10, 15, 21, 6, 10, 15, 21, 6, 10, 15, 21, 6, 10, 15, 21]

/-- The sine-derived additive constants. -/
def md5K : List Nat :=
  [0xd76aa478, 0xe8c7b756, 0x242070db, 0xc1bdceee,
   0xf57c0faf, 0x4787c62a, 0xa8304613, 0xfd469501,
   0x698098d8, 0x8b44f7af, 0xffff5bb1, 0x895cd7be,
   0x6b901122, 0xfd987193, 0xa679438e, 0x49b40821,
   0xf61e2562, 0xc040b340, 0x265e5a51, 0xe9b6c7aa,
   0xd62f105d, 0x02441453, 0xd8a1e681, 0xe7d3fbc8,
   0x21e1cde6, 0xc33707d6, 0xf4d50d87, 0x455a14ed,
   0xa9e3e905, 0xfcefa3f8, 0x676f02d9, 0x8d2a4c8a,
   0xfffa3942, 0x8771f681, 0x6d9d6122, 0xfde5380c,
   0xa4beea44, 0x4bdecfa9, 0xf6bb4b60, 0xbebfbc70,
   0x289b7ec6, 0xeaa127fa, 0xd4ef3085, 0x04881d05,
   0xd9d4d039, 0xe6db99e5, 0x1fa27cf8, 0xc4ac5665,
   0xf4292244, 0x432aff97, 0xab9423a7, 0xfc93a039,
   0x655b59c3, 0x8f0ccc92, 0xffeff47d, 0x85845dd1,
   0x6fa87e4f, 0xfe2ce6e0, 0xa3014314, 0x4e0811a1,
   0xf7537e82, 0xbd3af235, 0x2ad7d2bb, 0xeb86d391]

/-- Rotate a 32-bit word left by `c` bits. -/
def rotl32 (x c : Nat) : Nat := ((x <<< c) ||| (x >>> (32 - c))) % 2 ^ 32

/-- Bitwise complement of a 32-bit word. -/
def not32 (x : Nat) : Nat := x ^^^ 0xffffffff

/-- The chaining state `(a, b, c, d)`. -/
structure Md5State where
  a : Nat
  b : Nat
  c : Nat
  d : Nat

/-- The initial chaining value. -/
def md5Init : Md5State := ⟨0x67452301, 0xefcdab89, 0x98badcfe, 0x10325476⟩

/-- The non-linear function of step `i`. -/
def md5Mix (i b c d : Nat) : Nat :=
  if i < 16 then (b &&& c) ||| (not32 b &&& d)
  else if i < 32 then (d &&& b) ||| (not32 d &&& c)
  else if i < 48 then b ^^^ c ^^^ d
  else c ^^^ (b ||| not32 d)

/-- The message word used by step `i`. -/
def md5Index (i : Nat) : Nat :=
  if i < 16 then i
  else if i < 32 then (5 * i + 1) % 16
  else if i < 48 then (3 * i + 5) % 16
  else (7 * i) % 16

/-- One of the 64 steps on the 16 words `w` of a block. -/
def md5Step (w : List Nat) (s : Md5State) (i : Nat) : Md5State :=
  let f := (md5Mix i s.b s.c s.d + s.a + md5K.getD i 0 + w.getD (md5Index i) 0) % 2 ^ 32
  ⟨s.d, (s.b + rotl32 f (md5Shift.getD i 0)) % 2 ^ 32, s.b, s.c⟩

/-- Little-endian 32-bit words of a byte sequence. -/
def wordsLE : List Nat → List Nat
  | b0 :: b1 :: b2 :: b3 :: rest =>
    (b0 + b1 * 2 ^ 8 + b2 * 2 ^ 16 + b3 * 2 ^ 24) :: wordsLE rest
  | _ => []

/-- The compression of one 64-byte block into the chaining state. -/
def md5Block (s : Md5State) (block : List Nat) : Md5State :=
  let t := (List.range 64).foldl (md5Step (wordsLE block)) s
  ⟨(s.a + t.a) % 2 ^ 32, (s.b + t.b) % 2 ^ 32, (s.c + t.c) % 2 ^ 32, (s.d + t.d) % 2 ^ 32⟩

/-- Little-endian bytes of `x`, `n` of them. -/
def bytesLE : Nat → Nat → List Nat
  | 0, _ => []
  | n + 1, x => x % 256 :: bytesLE n (x / 256)

/-- The padded message: the `0x80` marker, zeros up to 56 modulo 64, and the bit
length as a 64-bit little-endian integer. -/
def md5Pad (msg : List Nat) : List Nat :=
  msg ++ 0x80 :: List.replicate ((119 - msg.length % 64) % 64) 0
    ++ bytesLE 8 ((8 * msg.length) % 2 ^ 64)

/-- Absorb `n` consecutive 64-byte blocks. -/
def md5Blocks : Nat → Md5State → List Nat → Md5State
  | 0, s, _ => s
  | n + 1, s, bytes => md5Blocks n (md5Block s (bytes.take 64)) (bytes.drop 64)

/-- The 16 digest bytes of a chaining state. -/
def md5Digest (s : Md5State) : List UInt8 :=
  (bytesLE 4 s.a ++ bytesLE 4 s.b ++ bytesLE 4 s.c ++ bytesLE 4 s.d).map UInt8.ofNat

/-- The MD5 digest: `h := md5.New(); h.Write(msg); h.Sum(nil)`. -/
def md5Sum (msg : GoString) : List UInt8 :=
  let padded := md5Pad (msg.map UInt8.toNat)
  md5Digest (md5Blocks (padded.length / 64) md5Init padded)

/-! ## `encoding/hex` -/

/-- The table `"0123456789abcdef"` of `encoding/hex`, indexed by a nibble. -/
def hexDigit (n : Nat) : UInt8 :=
  if n < 10 then UInt8.ofNat (48 + n) else UInt8.ofNat (87 + n)

/-- The function `hex.EncodeToString`: two lowercase digits per byte, high nibble first. -/
def hexEncodeToString : List UInt8 → GoString
  | [] => []
  | b :: rest => hexDigit (b.toNat >>> 4) :: hexDigit (b.toNat &&& 0x0f) :: hexEncodeToString rest

/-! ## `signParams` -/

/-- The keys collected by the first loop of `signParams`: every key but `"sign"`. -/
def signKeys (params : Params) : List GoString :=
  (mapKeys params).filter (fun k => decide (k ≠ lit "sign"))

/-- The segment `fmt.Sprintf("%s=%s&", k, params[k])`. -/
def signSegment (params : Params) (k : GoString) : GoString :=
  k ++ lit "=" ++ mapIndex params k ++ lit "&"

/-- The string `plain` that `signParams` hashes. -/
def signPlain (params : Params) (appSecret : GoString) : GoString :=
  (sortStrings (signKeys params)).foldl (fun plain k => plain ++ signSegment params k) []
    ++ (lit "app_secret=" ++ appSecret)

/-- The function `signParams` of `src/api.go`. -/
def signParams (params : Params) (appSecret : GoString) : GoString :=
  hexEncodeToString (md5Sum (signPlain params appSecret))

/-! ## The `encoding/json` round trip of `convertParams` -/

/-- A finite `float64` value `mant * 2 ^ exp`. (Decoding JSON never yields NaN or an
infinity.) -/
structure Float64 where
  mant : Int
  exp : Int

/-- The number of low bits that a natural number has beyond 53 significant bits: `0`
below `2 ^ 53`, otherwise `⌊log₂ a⌋ - 52` (given enough `fuel`; `a` itself is enough). -/
def excessBits : Nat → Nat → Nat
  | 0, _ => 0
  | fuel + 1, a => if a < 2 ^ 53 then 0 else excessBits fuel (a / 2) + 1

/-- The `float64` that `json.Unmarshal` stores for the decimal integer text of `n`
(`strconv.ParseFloat`, correctly rounded: nearest value, ties to even mantissa).
Integers of magnitude below `2 ^ 53` are exact; a larger one keeps its 53 leading
bits. (Magnitudes beyond the `float64` range, far above any `int64`, are not meant.) -/
def float64OfInt (n : Int) : Float64 :=
  let a := n.natAbs
  if a < 2 ^ 53 then ⟨n, 0⟩
  else
    let e := excessBits a a
    let q := a / 2 ^ e
    let r := a % 2 ^ e
    let half := 2 ^ (e - 1)
    let q' := if half < r ∨ (r = half ∧ q % 2 = 1) then q + 1 else q
    ⟨if n < 0 then -(q' : Int) else (q' : Int), (e : Int)⟩

/-- The integer part of a `float64`, rounding toward zero. -/
def Float64.trunc (f : Float64) : Int :=
  if 0 ≤ f.exp then f.mant * 2 ^ f.exp.toNat else Int.tdiv f.mant (2 ^ (-f.exp).toNat)

/-- The conversion `int64(v)` of a `float64`. When the truncated value does not fit an
`int64` the Go specification leaves the result to the implementation; `ovf` is that
result. -/
def int64OfFloat64 (ovf : Int) (f : Float64) : Int :=
  if -(2 ^ 63) ≤ f.trunc ∧ f.trunc < 2 ^ 63 then f.trunc else ovf

/-- The decimal digits of a natural number, as bytes. -/
def natDigits (n : Nat) : GoString := (Nat.toDigits 10 n).map (fun c => UInt8.ofNat c.toNat)

/-- The function `strconv.FormatInt(n, 10)`. -/
def formatInt (n : Int) : GoString :=
  if n < 0 then UInt8.ofNat 45 :: natDigits n.natAbs else natDigits n.natAbs

/-- Whether `b` is a UTF-8 continuation byte. -/
def isCont (b : UInt8) : Bool := decide (0x80 ≤ b.toNat ∧ b.toNat ≤ 0xBF)

/-- The length of the well-formed UTF-8 encoding that starts the string, as found by
`utf8.DecodeRuneInString`; `none` when it reports `(RuneError, 1)` (or the string is
empty). -/
def utf8SeqLen : GoString → Option Nat
  | [] => none
  | b0 :: rest =>
    let x := b0.toNat
    if x < 0x80 then some 1
    else if x < 0xC2 then none
    else if x < 0xE0 then
      match rest with
      | b1 :: _ => if isCont b1 then some 2 else none
      | _ => none
    else if x < 0xF0 then
      match rest with
      | b1 :: b2 :: _ =>
        if (if x = 0xE0 then 0xA0 else 0x80) ≤ b1.toNat
            ∧ b1.toNat ≤ (if x = 0xED then 0x9F else 0xBF) ∧ isCont b2 = true
        then some 3 else none
      | _ => none
    else if x < 0xF5 then
      match rest with
      | b1 :: b2 :: b3 :: _ =>
        if (if x = 0xF0 then 0x90 else 0x80) ≤ b1.toNat
            ∧ b1.toNat ≤ (if x = 0xF4 then 0x8F else 0xBF)
            ∧ isCont b2 = true ∧ isCont b3 = true
        then some 4 else none
      | _ => none
    else none

/-- The scan of `jsonCoerceString`; `skip` counts the bytes still to copy of the
encoding being read. -/
def jsonCoerceAux : Nat → GoString → GoString
  | _, [] => []
  | skip + 1, b :: rest => b :: jsonCoerceAux skip rest
  | 0, b :: rest =>
    match utf8SeqLen (b :: rest) with
    | some n => b :: jsonCoerceAux (n - 1) rest
    | none => 0xEF :: 0xBF :: 0xBD :: jsonCoerceAux 0 rest

/-- A string after `json.Marshal` and `json.Unmarshal`: the encoder coerces the
string to valid UTF-8, writing U+FFFD for each byte that starts no well-formed
encoding; every other escape it writes is undone by the decoder. -/
def jsonCoerceString (s : GoString) : GoString := jsonCoerceAux 0 s

/-- The scan of `utf8Valid`. -/
def utf8ValidAux : Nat → GoString → Bool
  | _, [] => true
  | skip + 1, _ :: rest => utf8ValidAux skip rest
  | 0, b :: rest =>
    match utf8SeqLen (b :: rest) with
    | some n => utf8ValidAux (n - 1) rest
    | none => false

/-- The function `utf8.ValidString`. -/
def utf8Valid (s : GoString) : Bool := utf8ValidAux 0 s

/-- A value that `json.Unmarshal` stores in an `interface{}`. -/
inductive Iface where
  | float64 (v : Float64)
  | string (s : GoString)
  | bool (b : Bool)
  | null
  | slice (l : List Iface)
  | map (m : List (GoString × Iface))

/-- The outcome of lines 195-203 of `convertParams`: `json.Marshal(request)` followed by
`json.Unmarshal` into a `map[string]interface{}`, either an error or the map `m`. -/
abbrev Decoded := Except GoString (List (GoString × Iface))

/-- The struct `OrderRequest`; `Int` fields stand for Go's `int` and `int64`. -/
structure OrderRequest where
  BAppId : GoString
  OrderId : GoString
  OrderState : Int
  OrderType : Int
  Amount : Int
  AmountType : GoString
  AmountBtc : Int
  OrderFee : Int
  OrderFeeBtc : Int
  Rate : Int
  CreateTime : Int
  PayTime : Int
  Body : GoString
  Extra : GoString
  OrderIp : GoString
  Time : Int
  AppKey : GoString
  Sign : GoString

/-- The JSON round trip of an `OrderRequest`. Marshalling a struct of strings and
integers cannot fail and gives an object with one member per field, named by the
field tag; unmarshalling it into `map[string]interface{}` cannot fail either and
stores a `float64` for every number and a `string` for every string. -/
def OrderRequest.jsonRoundTrip (r : OrderRequest) : Decoded :=
  .ok [(lit "bapp_id", .string (jsonCoerceString r.BAppId)),
       (lit "order_id", .string (jsonCoerceString r.OrderId)),
       (lit "order_state", .float64 (float64OfInt r.OrderState)),
       (lit "order_type", .float64 (float64OfInt r.OrderType)),
       (lit "amount", .float64 (float64OfInt r.Amount)),
       (lit "amount_type", .string (jsonCoerceString r.AmountType)),
       (lit "amount_btc", .float64 (float64OfInt r.AmountBtc)),
       (lit "order_fee", .float64 (float64OfInt r.OrderFee)),
       (lit "order_fee_btc", .float64 (float64OfInt r.OrderFeeBtc)),
       (lit "rate", .float64 (float64OfInt r.Rate)),
       (lit "create_time", .float64 (float64OfInt r.CreateTime)),
       (lit "pay_time", .float64 (float64OfInt r.PayTime)),
       (lit "body", .string (jsonCoerceString r.Body)),
       (lit "extra", .string (jsonCoerceString r.Extra)),
       (lit "order_ip", .string (jsonCoerceString r.OrderIp)),
       (lit "time", .float64 (float64OfInt r.Time)),
       (lit "app_key", .string (jsonCoerceString r.AppKey)),
       (lit "sign", .string (jsonCoerceString r.Sign))]

/-! ## `convertParams` and `CalcSign` -/

/-- The body of the loop of `convertParams`: the type switch on one entry of `m`. The
`default` branch only prints and leaves `params` as it is. -/
def convertEntry (ovf : Int) (params : Params) (kv : GoString × Iface) : Params :=
  match kv.2 with
  | .float64 v => mapSet params kv.1 (formatInt (int64OfFloat64 ovf v))
  | .string s => mapSet params kv.1 s
  | _ => params

/-- The function `convertParams` of `src/api.go`, applied to the outcome of the JSON
round trip of its argument. It returns the map and the error (`none` for `nil`). -/
def convertParams (ovf : Int) (decoded : Decoded) : Params × Option GoString :=
  match decoded with
  | .error err => ([], some err)
  | .ok m => (m.foldl (convertEntry ovf) [], none)

/-- The struct `Service`. -/
structure Service where
  appKey : GoString
  appSecret : GoString
  returnUrl : GoString
  notifyUrl : GoString

/-- The method `Service.CalcSign` of `src/api.go`; the error is the text wrapped in
`PayError`. -/
def Service.CalcSign (ovf : Int) (s : Service) (request : OrderRequest) :
    Bool × Option GoString :=
  match convertParams ovf request.jsonRoundTrip with
  | (_, some err) => (false, some err)
  | (params, none) => (decide (signParams params s.appSecret = request.Sign), none)

/-! ## `OrderCreate` and `OrderQuery` -/

/-- The constant `basePath`. -/
def basePath : GoString := lit "https://bapi.app/api/v2"

/-- The constant `payPath`. -/
def payPath : GoString := basePath ++ lit "/pay"

/-- The constant `queryPath`. -/
def queryPath : GoString := basePath ++ lit "/order"

/-- The text of `PayError.Error`: `fmt.Sprintf("Bapp pay error[%s]", string(e))`. -/
def PayError.Error (e : GoString) : GoString := lit "Bapp pay error[" ++ e ++ lit "]"

/-- A reading of the wall clock, `time.Now()`: whole seconds since the Unix epoch and
the nanoseconds within that second (below `10 ^ 9`). -/
structure Time where
  sec : Int
  nsec : Nat
deriving DecidableEq

/-- The method `Time.Unix`: seconds since the epoch. -/
def Time.Unix (t : Time) : Int := t.sec

/-- The value of an `int64` expression whose exact result is `n`: two's complement
wrap-around. -/
def wrapInt64 (n : Int) : Int := (n + 2 ^ 63) % 2 ^ 64 - 2 ^ 63

/-- The struct `PayData`. -/
structure PayData where
  QrCode : GoString
  PayUrl : GoString
deriving DecidableEq

/-- The struct `PayResponse`. -/
structure PayResponse where
  Code : Int
  Msg : GoString
  Data : PayData
deriving DecidableEq

/-- The struct `OrderDetail`. -/
structure OrderDetail where
  BAppId : GoString
  OrderId : GoString
  OrderState : Int
  Body : GoString
  NotifyUrl : GoString
  OrderIp : GoString
  Amount : Int
  AmountType : GoString
  AmountBtc : Int
  PayTime : Int
  CreateTime : Int
  OrderType : Int
  AppKey : GoString
  Extra : GoString
deriving DecidableEq

/-- The struct `OrderDetailResponse`. -/
structure OrderDetailResponse where
  Code : Int
  Msg : GoString
  Data : OrderDetail
deriving DecidableEq

/-- The outcome of `json.NewDecoder(resp.Body).Decode(&ret)` for a pointer `ret` to a
response struct: a decoding error, the JSON literal `null` (decoded without error, it
sets the pointer `ret` to `nil`), or a decoded struct. -/
inductive BodyDecode (α : Type) where
  | error (err : GoString)
  | null
  | value (ret : α)
deriving DecidableEq

/-- An HTTP response as the two functions use it: the status code and what decoding
the body gives (the body is read only when the status is 200). -/
structure HttpResponse (α : Type) where
  StatusCode : Int
  Body : BodyDecode α
deriving DecidableEq

/-- How a call of `OrderCreate` or `OrderQuery` ends: it returns `(data, err)` (`none`
for `nil`; an error is the text wrapped in `PayError`), or it panics on the nil pointer
dereference `ret.Code`. -/
inductive CallResult (α : Type) where
  | returned (data : Option α) (err : Option GoString)
  | panicked
deriving DecidableEq

/-- The map literal `params` of `OrderCreate`. The time is `time.Now().Unix()*1000`, an
`int64` product; `strconv.Itoa` is `FormatInt` in base 10. -/
def orderCreateLiteral (s : Service) (orderId body : GoString) (amount : Int) (now : Time) :
    Params :=
  [(lit "order_id", orderId),
   (lit "amount_type", lit "CNY"),
   (lit "amount", formatInt amount),
   (lit "time", formatInt (wrapInt64 (now.Unix * 1000))),
   (lit "app_key", s.appKey),
   (lit "body", body),
   (lit "return_url", s.returnUrl),
   (lit "notify_url", s.notifyUrl)]

/-- The map `params` that `OrderCreate` passes to `json.Marshal`: the map literal, then
`params["sign"] = signParams(params, s.appSecret)`. -/
def orderCreateParams (s : Service) (orderId body : GoString) (amount : Int) (now : Time) :
    Params :=
  let params := orderCreateLiteral s orderId body amount now
  mapSet params (lit "sign") (signParams params s.appSecret)

/-- The body `js` that `json.Marshal(params)` writes for a `map[string]string`, as the
receiver reads it: a JSON object with one member per entry, every name and value
coerced to valid UTF-8 by the encoder (the order of the members of an object is
immaterial; marshalling such a map cannot fail). -/
def jsonMarshalParams (params : Params) : Params :=
  params.map (fun kv => (jsonCoerceString kv.1, jsonCoerceString kv.2))

/-- The method `Service.OrderCreate` of `src/api.go`. `now` is the reading of the
clock and `post url js` the outcome of `http.Post(url, ..., js)`: a transport error or
a response. The body sent is `json.Marshal(params)`. -/
def Service.OrderCreate (s : Service) (orderId body : GoString) (amount : Int) (now : Time)
    (post : GoString → Params → Except GoString (HttpResponse PayResponse)) :
    CallResult PayData :=
  match post payPath (jsonMarshalParams (orderCreateParams s orderId body amount now)) with
  | .error err => .returned none (some err)
  | .ok resp =>
    if resp.StatusCode ≠ 200 then .returned none (some (lit "StatusCode != 200"))
    else
      match resp.Body with
      | .error err => .returned none (some err)
      | .null => .panicked
      | .value ret =>
        if ret.Code ≠ 200 then .returned none (some ret.Msg)
        else .returned (some ret.Data) none

/-- The map literal `params` of `OrderQuery`; the time is `time.Now().Unix()`. -/
def orderQueryParams (s : Service) (orderId : GoString) (now : Time) : Params :=
  [(lit "order_id", orderId),
   (lit "time", formatInt now.Unix),
   (lit "app_key", s.appKey)]

/-- The string `query` of `OrderQuery`. `order params` lists the entries of `params` in
the order in which the `range` loop visits them (Go leaves it unspecified). -/
def orderQueryString (s : Service) (orderId : GoString) (now : Time)
    (order : Params → Params) : GoString :=
  let params := orderQueryParams s orderId now
  (order params).foldl (fun query kv => query ++ (kv.1 ++ lit "=" ++ kv.2 ++ lit "&")) []
    ++ (lit "sign=" ++ signParams params s.appSecret)

/-- The method `Service.OrderQuery` of `src/api.go`. `get url` is the outcome of
`http.Get`: a transport error or a response. -/
def Service.OrderQuery (s : Service) (orderId : GoString) (now : Time)
    (order : Params → Params)
    (get : GoString → Except GoString (HttpResponse OrderDetailResponse)) :
    CallResult OrderDetail :=
  match get (queryPath ++ lit "?" ++ orderQueryString s orderId now order) with
  | .error err => .returned none (some err)
  | .ok resp =>
    if resp.StatusCode ≠ 200 then .returned none (some (lit "StatusCode != 200"))
    else
      match resp.Body with
      | .error err => .returned none (some err)
      | .null => .panicked
      | .value ret =>
        if ret.Code ≠ 200 then .returned none (some ret.Msg)
        else .returned (some ret.Data) none

/-! ## Definitions that follow the specification's wording -/

/-- The canonical plaintext of the specification over a list of entries taken in the
given order: `key ++ "=" ++ value ++ "&"` for each entry, then `"app_secret=" ++ S`
with nothing after it. -/
def canonicalPlaintext (entries : List (GoString × GoString)) (S : GoString) : GoString :=
  (entries.map (fun kv => kv.1 ++ lit "=" ++ kv.2 ++ lit "&")).flatten ++ lit "app_secret=" ++ S

/-- A lowercase hexadecimal digit: one of `0-9` or `a-f`. -/
def IsLowerHex (c : UInt8) : Prop :=
  (48 ≤ c.toNat ∧ c.toNat ≤ 57) ∨ (97 ≤ c.toNat ∧ c.toNat ≤ 102)

/-- Whether a decoded value is a JSON number or a JSON string. -/
def Iface.isScalar : Iface → Bool
  | .float64 _ => true
  | .string _ => true
  | _ => false

/-- The entry that the type switch of `convertParams` stores for one entry of `m`, if
any. -/
def convertValue (ovf : Int) (kv : GoString × Iface) : Option (GoString × GoString) :=
  match kv.2 with
  | .float64 v => some (kv.1, formatInt (int64OfFloat64 ovf v))
  | .string s => some (kv.1, s)
  | _ => none

/-- The 18 JSON field names of `OrderRequest`. -/
def orderRequestKeys : List GoString :=
  [lit "bapp_id", lit "order_id", lit "order_state", lit "order_type", lit "amount",
   lit "amount_type", lit "amount_btc", lit "order_fee", lit "order_fee_btc", lit "rate",
   lit "create_time", lit "pay_time", lit "body", lit "extra", lit "order_ip", lit "time",
   lit "app_key", lit "sign"]

/-- The string-typed fields of an `OrderRequest`: JSON name and Go value. -/
def OrderRequest.stringFields (r : OrderRequest) : List (GoString × GoString) :=
  [(lit "bapp_id", r.BAppId), (lit "order_id", r.OrderId), (lit "amount_type", r.AmountType),
   (lit "body", r.Body), (lit "extra", r.Extra), (lit "order_ip", r.OrderIp),
   (lit "app_key", r.AppKey), (lit "sign", r.Sign)]

/-- The integer-typed fields of an `OrderRequest`: JSON name and Go value. -/
def OrderRequest.intFields (r : OrderRequest) : List (GoString × Int) :=
  [(lit "order_state", r.OrderState), (lit "order_type", r.OrderType), (lit "amount", r.Amount),
   (lit "amount_btc", r.AmountBtc), (lit "order_fee", r.OrderFee),
   (lit "order_fee_btc", r.OrderFeeBtc), (lit "rate", r.Rate),
   (lit "create_time", r.CreateTime), (lit "pay_time", r.PayTime), (lit "time", r.Time)]

/-- The entries that `convertParams` stores for the 17 fields of an `OrderRequest` other
than `sign` (closed form, see `convertParams_orderRequest`). -/
def orderRequestEntries (ovf : Int) (r : OrderRequest) : Params :=
  [(lit "bapp_id", jsonCoerceString r.BAppId),
   (lit "order_id", jsonCoerceString r.OrderId),
   (lit "order_state", formatInt (int64OfFloat64 ovf (float64OfInt r.OrderState))),
   (lit "order_type", formatInt (int64OfFloat64 ovf (float64OfInt r.OrderType))),
   (lit "amount", formatInt (int64OfFloat64 ovf (float64OfInt r.Amount))),
   (lit "amount_type", jsonCoerceString r.AmountType),
   (lit "amount_btc", formatInt (int64OfFloat64 ovf (float64OfInt r.AmountBtc))),
   (lit "order_fee", formatInt (int64OfFloat64 ovf (float64OfInt r.OrderFee))),
   (lit "order_fee_btc", formatInt (int64OfFloat64 ovf (float64OfInt r.OrderFeeBtc))),
   (lit "rate", formatInt (int64OfFloat64 ovf (float64OfInt r.Rate))),
   (lit "create_time", formatInt (int64OfFloat64 ovf (float64OfInt r.CreateTime))),
   (lit "pay_time", formatInt (int64OfFloat64 ovf (float64OfInt r.PayTime))),
   (lit "body", jsonCoerceString r.Body),
   (lit "extra", jsonCoerceString r.Extra),
   (lit "order_ip", jsonCoerceString r.OrderIp),
   (lit "time", formatInt (int64OfFloat64 ovf (float64OfInt r.Time))),
   (lit "app_key", jsonCoerceString r.AppKey)]

/-- The request literal of `TestBAppSign` (`src/api_test.go`). -/
def testRequest : OrderRequest where
  BAppId := lit "20191108072229657c32"
  OrderId := lit "073f219de6ade14a3a675b31f5b348da"
  OrderState := 1
  OrderType := 2
  Amount := 99
  AmountType := lit "CNY"
  AmountBtc := 1534
  OrderFee := 1
  OrderFeeBtc := 16
  Rate := 6455380
  CreateTime := 1573197749068
  PayTime := 1573197753753
  Body := lit ""
  Extra := lit ""
  OrderIp := lit ""
  Time := 1573197754343
  AppKey := lit "9b3bee8696d9d208"
  Sign := lit "8f371ef58906f60b6063d833fb5e333d"

/-- The service of the tests: `NewService(AppKey, AppSecret, ReturnUrl, NotifyUrl)`. -/
def testService : Service where
  appKey := lit "your_app_key"
  appSecret := lit "your_app_secret"
  returnUrl := lit "https://www.google.com"
  notifyUrl := lit "https://www.google.com/callback"

/-- The current epoch time in milliseconds of a clock reading. -/
def Time.UnixMilli (t : Time) : Int := t.sec * 1000 + (t.nsec / 1000000 : Nat)

/-- The nine field names of the create request. -/
def orderCreateKeys : List GoString :=
  [lit "order_id", lit "amount_type", lit "amount", lit "time", lit "app_key", lit "body",
   lit "return_url", lit "notify_url", lit "sign"]

/-- The empty order detail, for examples. -/
def emptyOrderDetail : OrderDetail :=
  ⟨[], [], 0, [], [], [], 0, [], 0, 0, 0, 0, [], []⟩

/-! ## The byte-wise order and `sort.Strings` -/

theorem strLe_refl (a : GoString) : strLe a a = true := by
  induction a with
  | nil => rfl
  | cons x xs ih => simp [strLe, ih]

theorem strLe_total (a b : GoString) : strLe a b = true ∨ strLe b a = true := by
  induction a generalizing b with
  | nil => left; rfl
  | cons x xs ih =>
    cases b with
    | nil => right; rfl
    | cons y ys =>
      rcases Nat.lt_trichotomy x.toNat y.toNat with h | h | h
      · left; simp [strLe, h]
      · rcases ih ys with h1 | h1
        · left; simp [strLe, h, h1]
        · right; simp [strLe, h, h1]
      · right; simp [strLe, h]

theorem strLe_trans {a b c : GoString} (hab : strLe a b = true) (hbc : strLe b c = true) :
    strLe a c = true := by
  induction a generalizing b c with
  | nil => rfl
  | cons x xs ih =>
    cases b with
    | nil => simp [strLe] at hab
    | cons y ys =>
      cases c with
      | nil => simp [strLe] at hbc
      | cons z zs =>
        simp only [strLe] at hab hbc ⊢
        split_ifs at hab hbc ⊢ <;> first
          | rfl
          | omega
          | exact ih hab hbc

theorem strLe_antisymm {a b : GoString} (hab : strLe a b = true) (hba : strLe b a = true) :
    a = b := by
  induction a generalizing b with
  | nil =>
    cases b with
    | nil => rfl
    | cons y ys => simp [strLe] at hba
  | cons x xs ih =>
    cases b with
    | nil => simp [strLe] at hab
    | cons y ys =>
      simp only [strLe] at hab hba
      split_ifs at hab hba with h1 h2 h3
      · omega
      · have hxy : x = y := UInt8.ext (by omega)
        rw [hxy, ih hab hba]

instance strLe_isTotal : IsTotal GoString (fun a b => strLe a b = true) := ⟨strLe_total⟩

instance strLe_isTrans : IsTrans GoString (fun a b => strLe a b = true) :=
  ⟨fun _ _ _ => strLe_trans⟩

instance strLe_isAntisymm : IsAntisymm GoString (fun a b => strLe a b = true) :=
  ⟨fun _ _ => strLe_antisymm⟩

theorem sortStrings_sorted (l : List GoString) :
    (sortStrings l).Sorted (fun a b => strLe a b = true) :=
  List.sorted_insertionSort _ l

theorem sortStrings_perm (l : List GoString) : (sortStrings l).Perm l :=
  List.perm_insertionSort _ l

theorem mem_sortStrings {l : List GoString} {k : GoString} : k ∈ sortStrings l ↔ k ∈ l :=
  (sortStrings_perm l).mem_iff

theorem sortStrings_congr {l₁ l₂ : List GoString} (h : l₁.Perm l₂) :
    sortStrings l₁ = sortStrings l₂ :=
  List.eq_of_perm_of_sorted (((sortStrings_perm l₁).trans h).trans (sortStrings_perm l₂).symm)
    (sortStrings_sorted l₁) (sortStrings_sorted l₂)

theorem sortStrings_strict {l : List GoString} (nd : l.Nodup) :
    (sortStrings l).Pairwise (fun a b => strLt a b = true) := by
  have hs := sortStrings_sorted l
  have hn : (sortStrings l).Nodup := (sortStrings_perm l).nodup_iff.mpr nd
  refine (List.Pairwise.and hs hn).imp ?_
  rintro a b ⟨hle, hne⟩
  have hba : strLe b a ≠ true := fun h => hne (strLe_antisymm hle h)
  simp [strLt, hle, hba]

/-! ## Maps as association lists -/

theorem mapGet?_eq_none {β : Type} {m : List (GoString × β)} {k : GoString}
    (h : k ∉ mapKeys m) : mapGet? m k = none := by
  induction m with
  | nil => rfl
  | cons kv rest ih =>
    obtain ⟨k', v⟩ := kv
    simp only [mapKeys, List.map_cons, List.mem_cons, not_or] at h
    have hne : ¬ k' = k := fun e => h.1 e.symm
    simp only [mapGet?, hne, if_false]
    exact ih h.2

theorem mapGet?_mem {β : Type} {m : List (GoString × β)} {k : GoString} {v : β}
    (h : mapGet? m k = some v) : (k, v) ∈ m := by
  induction m with
  | nil => simp [mapGet?] at h
  | cons kv rest ih =>
    obtain ⟨k', v'⟩ := kv
    simp only [mapGet?] at h
    split_ifs at h with hk
    · cases h; subst hk; exact List.mem_cons_self _ _
    · exact List.mem_cons_of_mem _ (ih h)

theorem mapGet?_of_mem {β : Type} {m : List (GoString × β)} {k : GoString} {v : β}
    (nd : (mapKeys m).Nodup) (h : (k, v) ∈ m) : mapGet? m k = some v := by
  induction m with
  | nil => cases h
  | cons kv rest ih =>
    obtain ⟨k', v'⟩ := kv
    simp only [mapKeys, List.map_cons, List.nodup_cons] at nd
    rcases List.mem_cons.mp h with e | hin
    · cases e; simp [mapGet?]
    · have hne : ¬ k' = k := by
        rintro rfl
        exact nd.1 (List.mem_map_of_mem Prod.fst hin)
      simp only [mapGet?, hne, if_false]
      exact ih nd.2 hin

theorem mapGet?_isSome {β : Type} {m : List (GoString × β)} {k : GoString}
    (h : k ∈ mapKeys m) : ∃ v, mapGet? m k = some v := by
  induction m with
  | nil => cases h
  | cons kv rest ih =>
    obtain ⟨k', v'⟩ := kv
    by_cases hk : k' = k
    · exact ⟨v', by simp [mapGet?, hk]⟩
    · simp only [mapKeys, List.map_cons, List.mem_cons] at h
      rcases h with e | hin
      · exact absurd e.symm hk
      · obtain ⟨v, hv⟩ := ih hin
        exact ⟨v, by simp [mapGet?, hk, hv]⟩

theorem mapGet?_perm {β : Type} {m₁ m₂ : List (GoString × β)} (nd : (mapKeys m₁).Nodup)
    (h : m₁.Perm m₂) (k : GoString) : mapGet? m₁ k = mapGet? m₂ k := by
  have nd₂ : (mapKeys m₂).Nodup := (h.map Prod.fst).nodup_iff.mp nd
  by_cases hk : k ∈ mapKeys m₁
  · obtain ⟨v, hv⟩ := mapGet?_isSome hk
    rw [hv, mapGet?_of_mem nd₂ (h.mem_iff.mp (mapGet?_mem hv))]
  · have hk₂ : k ∉ mapKeys m₂ := fun hin => hk ((h.map Prod.fst).mem_iff.mpr hin)
    rw [mapGet?_eq_none hk, mapGet?_eq_none hk₂]

theorem mapKeys_mapSet_of_mem {β : Type} {m : List (GoString × β)} {k : GoString} (v : β)
    (h : k ∈ mapKeys m) : mapKeys (mapSet m k v) = mapKeys m := by
  induction m with
  | nil => cases h
  | cons kv rest ih =>
    obtain ⟨k', v'⟩ := kv
    by_cases hk : k' = k
    · simp [mapSet, hk, mapKeys]
    · simp only [mapKeys, List.map_cons, List.mem_cons] at h
      rcases h with e | hin
      · exact absurd e.symm hk
      · have := ih hin
        simp only [mapKeys] at this
        simp [mapSet, hk, mapKeys, this]

theorem mapKeys_mapSet_of_not_mem {β : Type} {m : List (GoString × β)} {k : GoString} (v : β)
    (h : k ∉ mapKeys m) : mapKeys (mapSet m k v) = mapKeys m ++ [k] := by
  induction m with
  | nil => rfl
  | cons kv rest ih =>
    obtain ⟨k', v'⟩ := kv
    simp only [mapKeys, List.map_cons, List.mem_cons, not_or] at h
    have hk : ¬ k' = k := fun e => h.1 e.symm
    have := ih h.2
    simp only [mapKeys] at this
    simp [mapSet, hk, mapKeys, this]

theorem mapGet?_mapSet_self {β : Type} (m : List (GoString × β)) (k : GoString) (v : β) :
    mapGet? (mapSet m k v) k = some v := by
  induction m with
  | nil => simp [mapSet, mapGet?]
  | cons kv rest ih =>
    obtain ⟨k', v'⟩ := kv
    by_cases hk : k' = k
    · simp [mapSet, hk, mapGet?]
    · simp [mapSet, hk, mapGet?, ih]

theorem mapGet?_mapSet_of_ne {β : Type} (m : List (GoString × β)) {k j : GoString} (v : β)
    (h : j ≠ k) : mapGet? (mapSet m k v) j = mapGet? m j := by
  induction m with
  | nil =>
    have : ¬ k = j := fun e => h e.symm
    simp [mapSet, mapGet?, this]
  | cons kv rest ih =>
    obtain ⟨k', v'⟩ := kv
    by_cases hk : k' = k
    · have : ¬ k = j := fun e => h e.symm
      subst hk
      simp [mapSet, mapGet?, this]
    · by_cases hj : k' = j
      · subst hj
        simp [mapSet, hk, mapGet?]
      · simp [mapSet, hk, mapGet?, hj, ih]

theorem mapGet?_mapDelete_of_ne {β : Type} (m : List (GoString × β)) {k j : GoString}
    (h : j ≠ k) : mapGet? (mapDelete m k) j = mapGet? m j := by
  induction m with
  | nil => rfl
  | cons kv rest ih =>
    obtain ⟨k', v'⟩ := kv
    by_cases hk : k' = k
    · have hj : ¬ k' = j := by rw [hk]; exact fun e => h e.symm
      have hd : mapDelete ((k', v') :: rest) k = mapDelete rest k := by
        simp [mapDelete, hk]
      rw [hd, ih]
      simp [mapGet?, hj]
    · have hd : mapDelete ((k', v') :: rest) k = (k', v') :: mapDelete rest k := by
        simp [mapDelete, hk]
      rw [hd]
      by_cases hj : k' = j
      · simp [mapGet?, hj]
      · simp [mapGet?, hj, ih]

/-! ## The plaintext of `signParams` -/

theorem foldl_append_eq_flatten {α : Type} (f : α → GoString) (l : List α) (init : GoString) :
    l.foldl (fun plain k => plain ++ f k) init = init ++ (l.map f).flatten := by
  induction l generalizing init with
  | nil => simp
  | cons a rest ih => simp [ih, List.append_assoc]

theorem signPlain_eq (P : Params) (S : GoString) :
    signPlain P S
      = ((sortStrings (signKeys P)).map (signSegment P)).flatten ++ (lit "app_secret=" ++ S) := by
  simp [signPlain, foldl_append_eq_flatten]

theorem mem_signKeys {P : Params} {k : GoString} :
    k ∈ signKeys P ↔ k ∈ mapKeys P ∧ k ≠ lit "sign" := by
  simp [signKeys]

theorem signKeys_nodup {P : Params} (nd : (mapKeys P).Nodup) : (signKeys P).Nodup :=
  nd.filter _

theorem signPlain_congr {P Q : Params} (S : GoString) (hk : (signKeys P).Perm (signKeys Q))
    (hv : ∀ k ∈ signKeys P, mapIndex P k = mapIndex Q k) : signPlain P S = signPlain Q S := by
  rw [signPlain_eq, signPlain_eq, ← sortStrings_congr hk]
  congr 2
  apply List.map_congr_left
  intro k hmem
  simp only [signSegment, hv k (mem_sortStrings.mp hmem)]

theorem mapIndex_of_mem {P : Params} {k v : GoString} (nd : (mapKeys P).Nodup)
    (h : (k, v) ∈ P) : mapIndex P k = v := by
  simp [mapIndex, mapGet?_of_mem nd h]

theorem mapIndex_mem {P : Params} {k : GoString} (h : k ∈ mapKeys P) :
    (k, mapIndex P k) ∈ P := by
  obtain ⟨v, hv⟩ := mapGet?_isSome h
  have : mapIndex P k = v := by simp [mapIndex, hv]
  rw [this]
  exact mapGet?_mem hv

theorem signKeys_mapSet_sign (P : Params) (x : GoString) :
    signKeys (mapSet P (lit "sign") x) = signKeys P := by
  by_cases h : lit "sign" ∈ mapKeys P
  · rw [signKeys, mapKeys_mapSet_of_mem x h, signKeys]
  · rw [signKeys, mapKeys_mapSet_of_not_mem x h, signKeys]
    simp

theorem signKeys_mapDelete_sign (P : Params) :
    signKeys (mapDelete P (lit "sign")) = signKeys P := by
  induction P with
  | nil => rfl
  | cons kv rest ih =>
    obtain ⟨k, v⟩ := kv
    simp [signKeys, mapKeys] at ih
    by_cases hk : k = lit "sign"
    · have hd : mapDelete ((k, v) :: rest) (lit "sign") = mapDelete rest (lit "sign") := by
        simp [mapDelete, hk]
      rw [hd]
      simp [signKeys, mapKeys, hk, ih]
    · have hd : mapDelete ((k, v) :: rest) (lit "sign") = (k, v) :: mapDelete rest (lit "sign") := by
        simp [mapDelete, hk]
      rw [hd]
      simp [signKeys, mapKeys, hk, ih]

/-! ## The digest and its hexadecimal form -/

theorem hexEncodeToString_length (l : List UInt8) :
    (hexEncodeToString l).length = 2 * l.length := by
  induction l with
  | nil => rfl
  | cons b rest ih => simp [hexEncodeToString, ih]; omega

theorem md5Sum_length (msg : GoString) : (md5Sum msg).length = 16 := by
  simp [md5Sum, md5Digest, bytesLE]

theorem toNat_ofNat_of_lt {n : Nat} (h : n < 256) : (UInt8.ofNat n).toNat = n :=
  UInt8.toNat_ofNat_of_lt h

theorem hexDigit_isLowerHex {n : Nat} (h : n < 16) : IsLowerHex (hexDigit n) := by
  unfold IsLowerHex hexDigit
  split_ifs with h10
  · left
    rw [toNat_ofNat_of_lt (by omega)]
    omega
  · right
    rw [toNat_ofNat_of_lt (by omega)]
    omega

theorem hexEncodeToString_isLowerHex (l : List UInt8) :
    ∀ c ∈ hexEncodeToString l, IsLowerHex c := by
  induction l with
  | nil => intro c hc; cases hc
  | cons b rest ih =>
    intro c hc
    simp only [hexEncodeToString, List.mem_cons] at hc
    have hb := UInt8.toNat_lt b
    rcases hc with rfl | rfl | hc
    · apply hexDigit_isLowerHex
      rw [Nat.shiftRight_eq_div_pow]
      omega
    · apply hexDigit_isLowerHex
      exact Nat.lt_succ_of_le Nat.and_le_right
    · exact ih c hc

theorem hexDigit_injOn {m n : Nat} (hm : m < 16) (hn : n < 16)
    (h : hexDigit m = hexDigit n) : m = n := by
  have h' := congrArg UInt8.toNat h
  unfold hexDigit at h'
  split_ifs at h' <;>
    rw [toNat_ofNat_of_lt (by omega), toNat_ofNat_of_lt (by omega)] at h' <;> omega

theorem hexEncodeToString_injective : Function.Injective hexEncodeToString := by
  intro l₁
  induction l₁ with
  | nil =>
    intro l₂ h
    cases l₂ with
    | nil => rfl
    | cons b rest => simp [hexEncodeToString] at h
  | cons a rest₁ ih =>
    intro l₂ h
    cases l₂ with
    | nil => simp [hexEncodeToString] at h
    | cons b rest₂ =>
      simp only [hexEncodeToString, List.cons.injEq] at h
      obtain ⟨hhi, hlo, hrest⟩ := h
      have ha := UInt8.toNat_lt a
      have hb := UInt8.toNat_lt b
      have e1 : a.toNat >>> 4 = b.toNat >>> 4 :=
        hexDigit_injOn (by rw [Nat.shiftRight_eq_div_pow]; omega)
          (by rw [Nat.shiftRight_eq_div_pow]; omega) hhi
      have e2 : a.toNat &&& 0x0f = b.toNat &&& 0x0f :=
        hexDigit_injOn (Nat.lt_succ_of_le Nat.and_le_right)
          (Nat.lt_succ_of_le Nat.and_le_right) hlo
      have m1 : a.toNat &&& 0x0f = a.toNat % 16 := Nat.and_pow_two_sub_one_eq_mod a.toNat 4
      have m2 : b.toNat &&& 0x0f = b.toNat % 16 := Nat.and_pow_two_sub_one_eq_mod b.toNat 4
      rw [Nat.shiftRight_eq_div_pow, Nat.shiftRight_eq_div_pow] at e1
      rw [m1, m2] at e2
      have hab : a = b := UInt8.ext (by omega)
      rw [hab, ih hrest]

/-! ## Properties of `signParams` -/

/-- C1: for a parameter map `P` (distinct keys) and a secret `S`, `signParams P S` is the
lowercase hex encoding of the MD5 digest of the canonical plaintext built from the
entries of `P` other than `"sign"`, taken in strictly ascending byte-wise key order,
each as `key=value&`, followed by `app_secret=S` and nothing more. -/
theorem signParams_canonical (P : Params) (S : GoString) (nd : (mapKeys P).Nodup) :
    ∃ entries : List (GoString × GoString),
      (∀ kv, kv ∈ entries ↔ kv ∈ P ∧ kv.1 ≠ lit "sign") ∧
      (entries.map Prod.fst).Pairwise (fun a b => strLt a b = true) ∧
      signParams P S = hexEncodeToString (md5Sum (canonicalPlaintext entries S)) := by
  refine ⟨(sortStrings (signKeys P)).map (fun k => (k, mapIndex P k)), ?_, ?_, ?_⟩
  · rintro ⟨k, v⟩
    simp only [List.mem_map, Prod.mk.injEq]
    constructor
    · rintro ⟨k', hk', rfl, rfl⟩
      have hmem := mem_signKeys.mp (mem_sortStrings.mp hk')
      exact ⟨mapIndex_mem hmem.1, hmem.2⟩
    · rintro ⟨hin, hne⟩
      refine ⟨k, mem_sortStrings.mpr (mem_signKeys.mpr ⟨?_, hne⟩), rfl, mapIndex_of_mem nd hin⟩
      exact List.mem_map_of_mem Prod.fst hin
  · have : ((sortStrings (signKeys P)).map (fun k => (k, mapIndex P k))).map Prod.fst
        = sortStrings (signKeys P) := by
      simp [List.map_map, Function.comp_def]
    rw [this]
    exact sortStrings_strict (signKeys_nodup nd)
  · have hseg : signSegment P = fun k => k ++ lit "=" ++ mapIndex P k ++ lit "&" := rfl
    simp [signParams, signPlain_eq, canonicalPlaintext, List.map_map, Function.comp_def,
      hseg, List.append_assoc]

/-- Witness for C1 on a three-entry map that holds a `sign` entry. -/
theorem signParams_canonical_witness :
    (mapKeys [(lit "b", lit "2"), (lit "sign", lit "x"), (lit "a", lit "1")]).Nodup ∧
    ∃ entries : List (GoString × GoString),
      (∀ kv, kv ∈ entries ↔
        kv ∈ [(lit "b", lit "2"), (lit "sign", lit "x"), (lit "a", lit "1")]
          ∧ kv.1 ≠ lit "sign") ∧
      (entries.map Prod.fst).Pairwise (fun a b => strLt a b = true) ∧
      signParams [(lit "b", lit "2"), (lit "sign", lit "x"), (lit "a", lit "1")] (lit "s3cr3t")
        = hexEncodeToString (md5Sum (canonicalPlaintext entries (lit "s3cr3t"))) :=
  ⟨by decide, signParams_canonical _ _ (by decide)⟩

/-- C2: two key/value lists with distinct keys that are permutations of each other
have the same signature under every secret. -/
theorem signParams_perm (S : GoString) (P Q : Params) (nd : (mapKeys P).Nodup)
    (h : P.Perm Q) : signParams P S = signParams Q S := by
  have hk : (signKeys P).Perm (signKeys Q) := (h.map Prod.fst).filter _
  have hv : ∀ k ∈ signKeys P, mapIndex P k = mapIndex Q k := by
    intro k _
    simp only [mapIndex, mapGet?_perm nd h k]
  simp only [signParams, signPlain_congr S hk hv]

/-- Witness for C2: the same three entries inserted in two orders. -/
theorem signParams_perm_witness :
    (mapKeys [(lit "order_id", lit "1"), (lit "amount", lit "500"),
        (lit "time", lit "1560849482796")]).Nodup ∧
    List.Perm [(lit "order_id", lit "1"), (lit "amount", lit "500"),
        (lit "time", lit "1560849482796")]
      [(lit "time", lit "1560849482796"), (lit "order_id", lit "1"),
        (lit "amount", lit "500")] ∧
    signParams [(lit "order_id", lit "1"), (lit "amount", lit "500"),
        (lit "time", lit "1560849482796")] (lit "s3cr3t")
      = signParams [(lit "time", lit "1560849482796"), (lit "order_id", lit "1"),
        (lit "amount", lit "500")] (lit "s3cr3t") :=
  ⟨by decide, by decide, signParams_perm _ _ _ (by decide) (by decide)⟩

/-- C3: the value stored under `"sign"` never influences the signature: signing `P`
with `"sign"` set to any `x` equals signing `P` with `"sign"` removed. -/
theorem signParams_sign_irrelevant (P : Params) (S x : GoString) :
    signParams (mapSet P (lit "sign") x) S = signParams (mapDelete P (lit "sign")) S := by
  have hk : signKeys (mapSet P (lit "sign") x) = signKeys (mapDelete P (lit "sign")) := by
    rw [signKeys_mapSet_sign, signKeys_mapDelete_sign]
  have hv : ∀ k ∈ signKeys (mapSet P (lit "sign") x),
      mapIndex (mapSet P (lit "sign") x) k = mapIndex (mapDelete P (lit "sign")) k := by
    intro k hmem
    have hne := (mem_signKeys.mp hmem).2
    simp only [mapIndex, mapGet?_mapSet_of_ne P x hne, mapGet?_mapDelete_of_ne P hne]
  simp only [signParams, signPlain_congr S (hk ▸ List.Perm.refl _) hv]

/-- C6: `signParams` always returns exactly 32 characters, each one of `0-9` or `a-f`. -/
theorem signParams_format (P : Params) (S : GoString) :
    (signParams P S).length = 32 ∧ ∀ c ∈ signParams P S, IsLowerHex c := by
  constructor
  · simp [signParams, hexEncodeToString_length, md5Sum_length]
  · exact hexEncodeToString_isLowerHex _

/-! ## `convertParams` -/

theorem mapSet_of_not_mem {β : Type} {m : List (GoString × β)} {k : GoString} (v : β)
    (h : k ∉ mapKeys m) : mapSet m k v = m ++ [(k, v)] := by
  induction m with
  | nil => rfl
  | cons kv rest ih =>
    obtain ⟨k', v'⟩ := kv
    simp only [mapKeys, List.map_cons, List.mem_cons, not_or] at h
    have hk : ¬ k' = k := fun e => h.1 e.symm
    have := ih h.2
    simp [mapSet, hk, this]

theorem convertEntry_eq (ovf : Int) (acc : Params) (kv : GoString × Iface)
    (h : kv.1 ∉ mapKeys acc) :
    convertEntry ovf acc kv = acc ++ (convertValue ovf kv).toList := by
  obtain ⟨k, v⟩ := kv
  cases v <;> simp [convertEntry, convertValue, mapSet_of_not_mem _ h]

theorem mapKeys_filterMap_convertValue (ovf : Int) (m : List (GoString × Iface)) :
    ∀ j, j ∈ mapKeys (m.filterMap (convertValue ovf)) → j ∈ mapKeys m := by
  intro j hj
  simp only [mapKeys, List.mem_map, List.mem_filterMap] at hj ⊢
  obtain ⟨p, ⟨kv, hkv, hc⟩, rfl⟩ := hj
  refine ⟨kv, hkv, ?_⟩
  obtain ⟨k, v⟩ := kv
  cases v <;> simp [convertValue] at hc <;> rw [← hc]

theorem foldl_convertEntry (ovf : Int) (m : List (GoString × Iface)) (acc : Params)
    (nd : (mapKeys acc ++ mapKeys m).Nodup) :
    m.foldl (convertEntry ovf) acc = acc ++ m.filterMap (convertValue ovf) := by
  induction m generalizing acc with
  | nil => simp
  | cons kv rest ih =>
    have hnot : kv.1 ∉ mapKeys acc := by
      intro hin
      have := List.nodup_append.mp nd
      exact this.2.2 hin (by simp [mapKeys])
    have hkeys : mapKeys (acc ++ (convertValue ovf kv).toList) ++ mapKeys rest
        = (mapKeys acc ++ mapKeys ((convertValue ovf kv).toList)) ++ mapKeys rest := by
      simp [mapKeys]
    have hsub : (mapKeys (acc ++ (convertValue ovf kv).toList) ++ mapKeys rest).Sublist
        (mapKeys acc ++ mapKeys (kv :: rest)) := by
      rw [hkeys, List.append_assoc]
      refine List.Sublist.append (List.Sublist.refl _) ?_
      obtain ⟨k, v⟩ := kv
      cases v <;> simp [convertValue, mapKeys]
    rw [List.foldl_cons, convertEntry_eq ovf acc kv hnot, ih _ (nd.sublist hsub)]
    cases hc : convertValue ovf kv <;> simp [List.filterMap_cons, hc]

theorem convertParams_ok (ovf : Int) (m : List (GoString × Iface)) (nd : (mapKeys m).Nodup) :
    convertParams ovf (.ok m) = (m.filterMap (convertValue ovf), none) := by
  simp [convertParams, foldl_convertEntry ovf m [] (by simpa [mapKeys] using nd)]

theorem orderRequestKeys_nodup : orderRequestKeys.Nodup := by decide!

theorem convertParams_orderRequest (ovf : Int) (r : OrderRequest) :
    convertParams ovf r.jsonRoundTrip
      = (orderRequestEntries ovf r ++ [(lit "sign", jsonCoerceString r.Sign)], none) := by
  unfold OrderRequest.jsonRoundTrip
  refine (convertParams_ok ovf _ ?_).trans rfl
  exact orderRequestKeys_nodup

theorem mapKeys_convertParams_orderRequest (ovf : Int) (r : OrderRequest) :
    mapKeys (convertParams ovf r.jsonRoundTrip).1 = orderRequestKeys := by
  rw [convertParams_orderRequest]
  rfl

theorem CalcSign_eq (ovf : Int) (s : Service) (r : OrderRequest) :
    s.CalcSign ovf r
      = (decide (signParams (convertParams ovf r.jsonRoundTrip).1 s.appSecret = r.Sign), none) := by
  unfold Service.CalcSign
  rw [convertParams_orderRequest]

theorem mapGet?_append_of_ne {β : Type} (m : List (GoString × β)) {k j : GoString} (v : β)
    (h : j ≠ k) : mapGet? (m ++ [(k, v)]) j = mapGet? m j := by
  induction m with
  | nil =>
    have : ¬ k = j := fun e => h e.symm
    simp [mapGet?, this]
  | cons kv rest ih =>
    obtain ⟨k', v'⟩ := kv
    by_cases hj : k' = j
    · simp [mapGet?, hj]
    · simp [mapGet?, hj, ih]

theorem signPlain_append_sign (m : Params) (x y S : GoString) :
    signPlain (m ++ [(lit "sign", x)]) S = signPlain (m ++ [(lit "sign", y)]) S := by
  apply signPlain_congr
  · simp [signKeys, mapKeys]
  · intro k hmem
    have hne := (mem_signKeys.mp hmem).2
    simp only [mapIndex, mapGet?_append_of_ne m x hne, mapGet?_append_of_ne m y hne]

theorem signParams_convertParams_sign (ovf : Int) (r : OrderRequest) (x S : GoString) :
    signParams (convertParams ovf ({ r with Sign := x } : OrderRequest).jsonRoundTrip).1 S
      = signParams (convertParams ovf r.jsonRoundTrip).1 S := by
  rw [convertParams_orderRequest, convertParams_orderRequest]
  have he : orderRequestEntries ovf ({ r with Sign := x } : OrderRequest)
      = orderRequestEntries ovf r := rfl
  simp only [signParams, he]
  rw [signPlain_append_sign (orderRequestEntries ovf r) _ (jsonCoerceString r.Sign) S]

/-- C4: self-verification. If the `Sign` field of a request is replaced by the
signature that `signParams` computes over the coerced request under the secret of the
service, `CalcSign` returns `(true, nil)`. -/
theorem CalcSign_self_verification (ovf : Int) (s : Service) (r : OrderRequest) :
    s.CalcSign ovf
        { r with Sign := signParams (convertParams ovf r.jsonRoundTrip).1 s.appSecret }
      = (true, none) := by
  rw [CalcSign_eq, signParams_convertParams_sign]
  simp

/-- C5: `CalcSign` always returns a nil error, and its boolean is true exactly when
`signParams` over the coerced request equals the `Sign` field byte for byte; a
mismatch is `(false, nil)`. -/
theorem CalcSign_result (ovf : Int) (s : Service) (r : OrderRequest) :
    (s.CalcSign ovf r).2 = none ∧
    ((s.CalcSign ovf r).1 = true ↔
      signParams (convertParams ovf r.jsonRoundTrip).1 s.appSecret = r.Sign) ∧
    (signParams (convertParams ovf r.jsonRoundTrip).1 s.appSecret ≠ r.Sign →
      s.CalcSign ovf r = (false, none)) := by
  rw [CalcSign_eq]
  refine ⟨rfl, by simp, ?_⟩
  intro h
  simp [h]

theorem convertValue_eq_some {ovf : Int} {kv : GoString × Iface} {p : GoString × GoString}
    (h : convertValue ovf kv = some p) : p.1 = kv.1 ∧ kv.2.isScalar = true := by
  obtain ⟨k, v⟩ := kv
  cases v <;> simp [convertValue] at h <;> simp [← h, Iface.isScalar]

theorem convertValue_of_isScalar (ovf : Int) (kv : GoString × Iface)
    (h : kv.2.isScalar = true) : ∃ p, convertValue ovf kv = some p ∧ p.1 = kv.1 := by
  obtain ⟨k, v⟩ := kv
  cases v <;> simp [Iface.isScalar] at h <;> simp [convertValue]

theorem isScalar_of_mem {m : List (GoString × Iface)} (nd : (mapKeys m).Nodup)
    {k : GoString} {v w : Iface} (hv : (k, v) ∈ m) (hw : (k, w) ∈ m) : v = w := by
  have h1 := mapGet?_of_mem nd hv
  have h2 := mapGet?_of_mem nd hw
  rw [h1] at h2
  exact Option.some.inj h2

/-- C7 (as amended): for a decoded record with distinct keys that has a field whose
value is neither a number nor a string, `convertParams` returns a nil error and a
parameter map without that field; the number and string fields are all kept. -/
theorem convertParams_skips_other (ovf : Int) (m : List (GoString × Iface)) (k : GoString)
    (v : Iface) (nd : (mapKeys m).Nodup) (hin : (k, v) ∈ m) (hv : v.isScalar = false) :
    (convertParams ovf (.ok m)).2 = none ∧
    k ∉ mapKeys (convertParams ovf (.ok m)).1 ∧
    ∀ j w, (j, w) ∈ m → w.isScalar = true → j ∈ mapKeys (convertParams ovf (.ok m)).1 := by
  rw [convertParams_ok ovf m nd]
  refine ⟨rfl, ?_, ?_⟩
  · intro hk
    simp only [mapKeys, List.mem_map, List.mem_filterMap] at hk
    obtain ⟨p, ⟨kv, hkv, hc⟩, hp⟩ := hk
    obtain ⟨h1, h2⟩ := convertValue_eq_some hc
    obtain ⟨k', w⟩ := kv
    have hk' : k' = k := by rw [← hp, h1]
    subst hk'
    have : v = w := isScalar_of_mem nd hin hkv
    subst this
    simp only at h2
    rw [hv] at h2
    cases h2
  · intro j w hjw hw
    obtain ⟨p, hp, hp1⟩ := convertValue_of_isScalar ovf (j, w) hw
    simp only [mapKeys, List.mem_map, List.mem_filterMap]
    exact ⟨p, ⟨(j, w), hjw, hp⟩, hp1⟩

/-- Witness for C7 (as amended): a record with a string field and a boolean field. -/
theorem convertParams_skips_other_witness :
    (mapKeys [(lit "order_id", Iface.string (lit "1")), (lit "paid", Iface.bool true)]).Nodup ∧
    (convertParams 0
      (.ok [(lit "order_id", Iface.string (lit "1")), (lit "paid", Iface.bool true)])).2 = none ∧
    lit "paid" ∉ mapKeys (convertParams 0
      (.ok [(lit "order_id", Iface.string (lit "1")), (lit "paid", Iface.bool true)])).1 :=
  ⟨by decide,
   (convertParams_skips_other 0 _ (lit "paid") (Iface.bool true) (by decide)
      (List.mem_cons_of_mem _ (List.mem_cons_self _ _)) rfl).1,
   (convertParams_skips_other 0 _ (lit "paid") (Iface.bool true) (by decide)
      (List.mem_cons_of_mem _ (List.mem_cons_self _ _)) rfl).2.1⟩

/-- C7, counterexample: on the record `{"order_id": "1", "paid": true}` the function
returns no error, and a map from which the boolean field is missing. -/
theorem convertParams_bool_field_dropped :
    convertParams 0
        (.ok [(lit "order_id", Iface.string (lit "1")), (lit "paid", Iface.bool true)])
      = ([(lit "order_id", lit "1")], none) := by
  decide!

/-! ## Coercion of the fields of an `OrderRequest` -/

theorem mapGet?_convertParams_orderRequest (ovf : Int) (r : OrderRequest) {k v : GoString}
    (h : (k, v) ∈ orderRequestEntries ovf r ++ [(lit "sign", jsonCoerceString r.Sign)]) :
    mapGet? (convertParams ovf r.jsonRoundTrip).1 k = some v := by
  rw [convertParams_orderRequest]
  exact mapGet?_of_mem (show (mapKeys _).Nodup from orderRequestKeys_nodup) h

/-- The fuel of `excessBits` suffices: above `2 ^ 53` the quotient that `float64OfInt`
keeps has exactly 53 significant bits. -/
theorem excessBits_spec (fuel a : Nat) (ha : 2 ^ 53 ≤ a) (hf : a ≤ fuel) :
    2 ^ 52 ≤ a / 2 ^ excessBits fuel a ∧ a / 2 ^ excessBits fuel a < 2 ^ 53 := by
  induction fuel generalizing a with
  | zero => omega
  | succ fuel ih =>
    have hlt : ¬ a < 2 ^ 53 := by omega
    simp only [excessBits, hlt, if_false]
    have hdiv : ∀ e : Nat, a / 2 ^ (e + 1) = a / 2 / 2 ^ e := by
      intro e
      rw [Nat.pow_succ, Nat.mul_comm, Nat.div_div_eq_div_mul]
    rw [hdiv]
    by_cases h2 : a / 2 < 2 ^ 53
    · have h0 : excessBits fuel (a / 2) = 0 := by
        cases fuel with
        | zero => rfl
        | succ m => simp only [excessBits, h2, if_true]
      rw [h0]
      simp only [Nat.pow_zero, Nat.div_one]
      omega
    · exact ih (a / 2) (by omega) (by omega)

theorem int64OfFloat64_of_trunc {ovf : Int} {f : Float64} {t : Int} (ht : f.trunc = t)
    (hlo : -(2 ^ 63) ≤ t) (hhi : t < 2 ^ 63) : int64OfFloat64 ovf f = t := by
  unfold int64OfFloat64
  rw [ht, if_pos ⟨hlo, hhi⟩]

theorem int64OfFloat64_float64OfInt (ovf : Int) {n : Int} (h : n.natAbs ≤ 2 ^ 53) :
    int64OfFloat64 ovf (float64OfInt n) = n := by
  by_cases hlt : n.natAbs < 2 ^ 53
  · have hf : float64OfInt n = ⟨n, 0⟩ := by
      unfold float64OfInt
      simp only [hlt, if_true]
    have ht : (float64OfInt n).trunc = n := by simp [hf, Float64.trunc]
    exact int64OfFloat64_of_trunc ht (by omega) (by omega)
  · have he : n.natAbs = 2 ^ 53 := by omega
    rcases Int.natAbs_eq n with hn | hn
    · rw [he] at hn
      subst hn
      exact int64OfFloat64_of_trunc (by decide!) (by decide) (by decide)
    · rw [he] at hn
      subst hn
      exact int64OfFloat64_of_trunc (by decide!) (by decide) (by decide)

/-- The integer fields are rendered exactly as long as their magnitude is at most `2 ^ 53`. -/
theorem convertParams_int_exact (ovf : Int) (r : OrderRequest) :
    ∀ kv ∈ r.intFields, kv.2.natAbs ≤ 2 ^ 53 →
      mapGet? (convertParams ovf r.jsonRoundTrip).1 kv.1 = some (formatInt kv.2) := by
  intro kv hkv hb
  apply mapGet?_convertParams_orderRequest
  simp only [OrderRequest.intFields, List.mem_cons, List.mem_singleton, List.not_mem_nil,
    or_false] at hkv
  rcases hkv with rfl | rfl | rfl | rfl | rfl | rfl | rfl | rfl | rfl | rfl <;>
    simp [orderRequestEntries, int64OfFloat64_float64OfInt ovf hb]

/-- C8, evaluation at the failing input: in the request of the test with `Amount` set to
`2^53 + 1 = 9007199254740993`, `convertParams` maps `amount` to `"9007199254740992"`,
which is not the decimal rendering `"9007199254740993"` of the field. -/
theorem convertParams_amount_rounded (ovf : Int) :
    mapGet? (convertParams ovf
        ({ testRequest with Amount := 9007199254740993 } : OrderRequest).jsonRoundTrip).1
        (lit "amount")
      = some (lit "9007199254740992") ∧
    formatInt 9007199254740993 = lit "9007199254740993" ∧
    lit "9007199254740992" ≠ lit "9007199254740993" := by
  refine ⟨?_, by decide!, by decide!⟩
  apply mapGet?_convertParams_orderRequest
  have hv : int64OfFloat64 ovf (float64OfInt 9007199254740993) = 9007199254740992 :=
    int64OfFloat64_of_trunc (by decide!) (by decide) (by decide)
  have hs : formatInt 9007199254740992 = lit "9007199254740992" := by decide!
  simp [orderRequestEntries, hv, hs]

theorem jsonCoerceAux_of_valid (skip : Nat) (s : GoString) (h : utf8ValidAux skip s = true) :
    jsonCoerceAux skip s = s := by
  induction s generalizing skip with
  | nil => cases skip <;> rfl
  | cons b rest ih =>
    cases skip with
    | zero =>
      simp only [utf8ValidAux] at h
      simp only [jsonCoerceAux]
      split at h
      · rename_i n hn
        simp only [hn, ih _ h]
      · cases h
    | succ n =>
      simp only [utf8ValidAux] at h
      simp only [jsonCoerceAux, ih _ h]

theorem jsonCoerceString_of_valid {s : GoString} (h : utf8Valid s = true) :
    jsonCoerceString s = s :=
  jsonCoerceAux_of_valid 0 s h

theorem stringFields_mem (ovf : Int) (r : OrderRequest) :
    ∀ kv ∈ r.stringFields, (kv.1, jsonCoerceString kv.2)
      ∈ orderRequestEntries ovf r ++ [(lit "sign", jsonCoerceString r.Sign)] := by
  intro kv hkv
  simp only [OrderRequest.stringFields, List.mem_cons, List.mem_singleton, List.not_mem_nil,
    or_false] at hkv
  rcases hkv with rfl | rfl | rfl | rfl | rfl | rfl | rfl | rfl <;>
    simp [orderRequestEntries]

theorem lit_eq_amp : lit "=" ++ lit "&" = lit "=&" := by decide

/-- C9 (as amended): the keys of `convertParams r` are exactly the 18 JSON field names
of `OrderRequest`; every string field is mapped to its value coerced to valid UTF-8
(each byte that starts no well-formed encoding replaced by U+FFFD), hence verbatim
when the value is valid UTF-8; a field holding the empty string is present with
value `""` and contributes `name ++ "=&"` to the plaintext. -/
theorem convertParams_orderRequest_strings (ovf : Int) (r : OrderRequest) :
    (mapKeys (convertParams ovf r.jsonRoundTrip).1).Perm orderRequestKeys ∧
    ∀ kv ∈ r.stringFields,
      mapGet? (convertParams ovf r.jsonRoundTrip).1 kv.1 = some (jsonCoerceString kv.2) ∧
      (utf8Valid kv.2 = true →
        mapGet? (convertParams ovf r.jsonRoundTrip).1 kv.1 = some kv.2) ∧
      (kv.2 = [] →
        mapGet? (convertParams ovf r.jsonRoundTrip).1 kv.1 = some [] ∧
        signSegment (convertParams ovf r.jsonRoundTrip).1 kv.1 = kv.1 ++ lit "=&") := by
  refine ⟨by rw [mapKeys_convertParams_orderRequest], ?_⟩
  intro kv hkv
  have hget := mapGet?_convertParams_orderRequest ovf r (stringFields_mem ovf r kv hkv)
  refine ⟨hget, ?_, ?_⟩
  · intro hvalid
    rw [hget, jsonCoerceString_of_valid hvalid]
  · intro hempty
    have hnil : jsonCoerceString kv.2 = [] := by rw [hempty]; rfl
    rw [hnil] at hget
    refine ⟨hget, ?_⟩
    simp [signSegment, mapIndex, hget, ← lit_eq_amp]

/-- Witness for C9 (as amended): the empty `body` of the request of the test. -/
theorem convertParams_orderRequest_strings_witness :
    mapGet? (convertParams 0 testRequest.jsonRoundTrip).1 (lit "body") = some [] ∧
    signSegment (convertParams 0 testRequest.jsonRoundTrip).1 (lit "body")
      = lit "body" ++ lit "=&" :=
  ((convertParams_orderRequest_strings 0 testRequest).2 (lit "body", testRequest.Body)
    (by simp [OrderRequest.stringFields])).2.2 rfl

/-- C9, counterexample: a `body` holding the single byte `0xff` (not valid UTF-8) is not
mapped verbatim: `convertParams` stores the three bytes of U+FFFD for it. -/
theorem convertParams_body_not_verbatim :
    mapGet? (convertParams 0
        ({ testRequest with Body := [0xff] } : OrderRequest).jsonRoundTrip).1 (lit "body")
      = some [0xEF, 0xBF, 0xBD] ∧
    mapGet? (convertParams 0
        ({ testRequest with Body := [0xff] } : OrderRequest).jsonRoundTrip).1 (lit "body")
      ≠ some ({ testRequest with Body := [0xff] } : OrderRequest).Body := by
  decide!

/-! ## Tamper sensitivity -/

theorem mapIndex_mapSet_self (P : Params) (k v : GoString) :
    mapIndex (mapSet P k v) k = v := by
  simp [mapIndex, mapGet?_mapSet_self]

theorem signSegment_mapSet_of_ne (P : Params) {k j : GoString} (v : GoString) (h : j ≠ k) :
    signSegment (mapSet P k v) j = signSegment P j := by
  simp only [signSegment, mapIndex, mapGet?_mapSet_of_ne P v h]

theorem segments_mapSet_of_not_mem (P : Params) {k : GoString} (v : GoString)
    {l : List GoString} (h : k ∉ l) :
    l.map (signSegment (mapSet P k v)) = l.map (signSegment P) := by
  apply List.map_congr_left
  intro j hj
  exact signSegment_mapSet_of_ne P v (fun e => h (e ▸ hj))

theorem signPlain_mapSet_ne (P : Params) (S k v : GoString) (nd : (mapKeys P).Nodup)
    (hk : k ∈ mapKeys P) (hs : k ≠ lit "sign") (hv : v ≠ mapIndex P k) :
    signPlain (mapSet P k v) S ≠ signPlain P S := by
  intro heq
  have hkeys : signKeys (mapSet P k v) = signKeys P := by
    rw [signKeys, mapKeys_mapSet_of_mem v hk, signKeys]
  have hmem : k ∈ sortStrings (signKeys P) := mem_sortStrings.mpr (mem_signKeys.mpr ⟨hk, hs⟩)
  have hnd : (sortStrings (signKeys P)).Nodup :=
    (sortStrings_perm _).nodup_iff.mpr (signKeys_nodup nd)
  obtain ⟨l₁, l₂, hsplit⟩ := List.append_of_mem hmem
  rw [hsplit] at hnd
  have hk₁ : k ∉ l₁ := fun h =>
    (List.nodup_append.mp hnd).2.2 h (List.mem_cons_self _ _)
  have hk₂ : k ∉ l₂ := (List.nodup_cons.mp (List.nodup_append.mp hnd).2.1).1
  rw [signPlain_eq, signPlain_eq, hkeys, hsplit] at heq
  simp only [List.map_append, List.map_cons, List.flatten_append, List.flatten_cons,
    segments_mapSet_of_not_mem P v hk₁, segments_mapSet_of_not_mem P v hk₂] at heq
  simp only [signSegment, mapIndex_mapSet_self, List.append_assoc,
    List.append_cancel_left_eq] at heq
  exact hv (List.append_cancel_right heq)

/-- C10: tamper sensitivity at the level of the canonical plaintext. Replacing the value
of a key `k` of `P` other than `"sign"` by a different value changes the plaintext
that `signParams` hashes; so, whenever MD5 does not collide on the two plaintexts, the
signatures differ and comparing the signature of the tampered set with the original
one (the test of `CalcSign`) gives `false`. -/
theorem signParams_tamper (P : Params) (S k v : GoString) (nd : (mapKeys P).Nodup)
    (hk : k ∈ mapKeys P) (hs : k ≠ lit "sign") (hv : v ≠ mapIndex P k) :
    signPlain (mapSet P k v) S ≠ signPlain P S ∧
    (md5Sum (signPlain (mapSet P k v) S) ≠ md5Sum (signPlain P S) →
      signParams (mapSet P k v) S ≠ signParams P S ∧
      decide (signParams (mapSet P k v) S = signParams P S) = false) := by
  refine ⟨signPlain_mapSet_ne P S k v nd hk hs hv, fun hmd5 => ?_⟩
  have hne : signParams (mapSet P k v) S ≠ signParams P S :=
    fun h => hmd5 (hexEncodeToString_injective h)
  exact ⟨hne, by simp [hne]⟩

/-- Witness for C10: the scenario of the specification, `amount` changed from `"500"`
to `"501"` under the secret `"s3cr3t"`; here the digests do differ. -/
theorem signParams_tamper_witness :
    (mapKeys [(lit "order_id", lit "1"), (lit "amount", lit "500"),
        (lit "time", lit "1560849482796"), (lit "app_key", lit "4789e57f8629eb9e")]).Nodup ∧
    lit "amount" ∈ mapKeys [(lit "order_id", lit "1"), (lit "amount", lit "500"),
        (lit "time", lit "1560849482796"), (lit "app_key", lit "4789e57f8629eb9e")] ∧
    lit "amount" ≠ lit "sign" ∧
    lit "501" ≠ mapIndex [(lit "order_id", lit "1"), (lit "amount", lit "500"),
        (lit "time", lit "1560849482796"), (lit "app_key", lit "4789e57f8629eb9e")]
        (lit "amount") ∧
    signParams (mapSet [(lit "order_id", lit "1"), (lit "amount", lit "500"),
        (lit "time", lit "1560849482796"), (lit "app_key", lit "4789e57f8629eb9e")]
        (lit "amount") (lit "501")) (lit "s3cr3t")
      ≠ signParams [(lit "order_id", lit "1"), (lit "amount", lit "500"),
        (lit "time", lit "1560849482796"), (lit "app_key", lit "4789e57f8629eb9e")]
        (lit "s3cr3t") :=
  ⟨by decide, by decide, by decide, by decide,
   ((signParams_tamper _ (lit "s3cr3t") (lit "amount") (lit "501") (by decide) (by decide)
      (by decide) (by decide)).2 (by decide!)).1⟩

/-! ## Test vectors of the MD5 model (RFC 1321, appendix A.5) -/

theorem md5_empty :
    hexEncodeToString (md5Sum (lit "")) = lit "d41d8cd98f00b204e9800998ecf8427e" := by
  decide!

theorem md5_abc :
    hexEncodeToString (md5Sum (lit "abc")) = lit "900150983cd24fb0d6963f7d28e17f72" := by
  decide!

theorem md5_alphabet :
    hexEncodeToString (md5Sum (lit "abcdefghijklmnopqrstuvwxyz"))
      = lit "c3fcd3d76192e4007dfb496cca67e13b" := by
  decide!

theorem md5_digits :
    hexEncodeToString (md5Sum (lit
      "12345678901234567890123456789012345678901234567890123456789012345678901234567890"))
      = lit "57edf4a22be3c955ac49da2e2107b67a" := by
  decide!

/-! ## The fixture of `TestBAppSign` -/

theorem convertParams_testRequest (ovf : Int) :
    convertParams ovf testRequest.jsonRoundTrip = convertParams 0 testRequest.jsonRoundTrip := by
  have h : ∀ n : Int, n.natAbs ≤ 2 ^ 53 →
      int64OfFloat64 ovf (float64OfInt n) = int64OfFloat64 0 (float64OfInt n) := by
    intro n hn
    rw [int64OfFloat64_float64OfInt ovf hn, int64OfFloat64_float64OfInt 0 hn]
  rw [convertParams_orderRequest, convertParams_orderRequest]
  simp only [orderRequestEntries]
  rw [h testRequest.OrderState (by decide), h testRequest.OrderType (by decide),
    h testRequest.Amount (by decide), h testRequest.AmountBtc (by decide),
    h testRequest.OrderFee (by decide), h testRequest.OrderFeeBtc (by decide),
    h testRequest.Rate (by decide), h testRequest.CreateTime (by decide),
    h testRequest.PayTime (by decide), h testRequest.Time (by decide)]

/-- C11, evaluation at the fixture: for the request literal of `TestBAppSign` and the
service that the test builds with `AppSecret = "your_app_secret"`, `signParams` over
the coerced record is `9ebea1d5e8e22936e9d28506a42e17b4`, not the `Sign` field
`8f371ef58906f60b6063d833fb5e333d`, and `CalcSign` returns `(false, nil)`. -/
theorem CalcSign_testRequest (ovf : Int) :
    signParams (convertParams ovf testRequest.jsonRoundTrip).1 testService.appSecret
      = lit "9ebea1d5e8e22936e9d28506a42e17b4" ∧
    testRequest.Sign = lit "8f371ef58906f60b6063d833fb5e333d" ∧
    testService.CalcSign ovf testRequest = (false, none) := by
  have hs : signParams (convertParams 0 testRequest.jsonRoundTrip).1 testService.appSecret
      = lit "9ebea1d5e8e22936e9d28506a42e17b4" := by decide!
  have hne : lit "9ebea1d5e8e22936e9d28506a42e17b4" ≠ testRequest.Sign := by decide!
  refine ⟨by rw [convertParams_testRequest, hs], rfl, ?_⟩
  rw [CalcSign_eq, convertParams_testRequest, hs]
  simp [hne]

/-! ## Collisions of the canonical plaintext -/

/-- C15: the canonical plaintext is not injective across key sets, because `=` and `&`
are not escaped: the maps `{a: "1&b=2"}` and `{a: "1", b: "2"}` have different key
sets and the same signature under every secret. -/
theorem signParams_not_injective :
    ∃ P Q : Params, (mapKeys P).Nodup ∧ (mapKeys Q).Nodup ∧
      P = [(lit "a", lit "1&b=2")] ∧ Q = [(lit "a", lit "1"), (lit "b", lit "2")] ∧
      (∃ k, k ∈ mapKeys Q ∧ k ∉ mapKeys P) ∧
      ∀ S, signPlain P S = signPlain Q S ∧ signParams P S = signParams Q S := by
  refine ⟨[(lit "a", lit "1&b=2")], [(lit "a", lit "1"), (lit "b", lit "2")],
    by decide, by decide, rfl, rfl, ⟨lit "b", by decide, by decide⟩, ?_⟩
  intro S
  have hp : signPlain [(lit "a", lit "1&b=2")] S
      = signPlain [(lit "a", lit "1"), (lit "b", lit "2")] S := by
    have hseg : ((sortStrings (signKeys [(lit "a", lit "1&b=2")])).map
          (signSegment [(lit "a", lit "1&b=2")])).flatten
        = ((sortStrings (signKeys [(lit "a", lit "1"), (lit "b", lit "2")])).map
          (signSegment [(lit "a", lit "1"), (lit "b", lit "2")])).flatten := by
      decide!
    rw [signPlain_eq, signPlain_eq, hseg]
  exact ⟨hp, by simp only [signParams, hp]⟩

/-! ## The request of `OrderCreate` -/

theorem mapDelete_append_of_not_mem {β : Type} {m : List (GoString × β)} {k : GoString}
    (v : β) (h : k ∉ mapKeys m) : mapDelete (m ++ [(k, v)]) k = m := by
  induction m with
  | nil => simp [mapDelete]
  | cons kv rest ih =>
    obtain ⟨k', v'⟩ := kv
    simp only [mapKeys, List.map_cons, List.mem_cons, not_or] at h
    have hk : ¬ k' = k := fun e => h.1 e.symm
    have hd : mapDelete ((k', v') :: rest ++ [(k, v)]) k
        = (k', v') :: mapDelete (rest ++ [(k, v)]) k := by
      simp [mapDelete, hk]
    rw [hd, ih h.2]

theorem signPlain_append_sign_drop (m : Params) (x S : GoString) :
    signPlain (m ++ [(lit "sign", x)]) S = signPlain m S := by
  apply signPlain_congr
  · simp [signKeys, mapKeys]
  · intro k hmem
    have hne := (mem_signKeys.mp hmem).2
    simp only [mapIndex, mapGet?_append_of_ne m x hne]

theorem wrapInt64_of_inRange {n : Int} (hlo : -(2 ^ 63) ≤ n) (hhi : n < 2 ^ 63) :
    wrapInt64 n = n := by
  unfold wrapInt64
  omega

theorem orderCreateKeys_nodup : orderCreateKeys.Nodup := by decide!

theorem sign_not_mem_orderCreateLiteral (s : Service) (orderId body : GoString) (amount : Int)
    (now : Time) : lit "sign" ∉ mapKeys (orderCreateLiteral s orderId body amount now) := by
  have h : lit "sign" ∉ orderCreateKeys.take 8 := by decide!
  exact h

theorem orderCreateParams_eq (s : Service) (orderId body : GoString) (amount : Int)
    (now : Time) :
    orderCreateParams s orderId body amount now
      = orderCreateLiteral s orderId body amount now
        ++ [(lit "sign", signParams (orderCreateLiteral s orderId body amount now) s.appSecret)] := by
  unfold orderCreateParams
  exact mapSet_of_not_mem _ (sign_not_mem_orderCreateLiteral s orderId body amount now)

theorem mapKeys_orderCreateParams (s : Service) (orderId body : GoString) (amount : Int)
    (now : Time) : mapKeys (orderCreateParams s orderId body amount now) = orderCreateKeys := by
  rw [orderCreateParams_eq]
  rfl

theorem mapGet?_orderCreateParams (s : Service) (orderId body : GoString) (amount : Int)
    (now : Time) {k v : GoString}
    (h : (k, v) ∈ orderCreateParams s orderId body amount now) :
    mapGet? (orderCreateParams s orderId body amount now) k = some v := by
  apply mapGet?_of_mem _ h
  rw [mapKeys_orderCreateParams]
  exact orderCreateKeys_nodup

/-- The entries of the map that `OrderCreate` builds. -/
theorem orderCreateParams_entries (s : Service) (orderId body : GoString) (amount : Int)
    (now : Time) :
    (mapKeys (orderCreateParams s orderId body amount now)).Perm orderCreateKeys ∧
    mapGet? (orderCreateParams s orderId body amount now) (lit "order_id") = some orderId ∧
    mapGet? (orderCreateParams s orderId body amount now) (lit "amount_type")
      = some (lit "CNY") ∧
    mapGet? (orderCreateParams s orderId body amount now) (lit "amount")
      = some (formatInt amount) ∧
    mapGet? (orderCreateParams s orderId body amount now) (lit "time")
      = some (formatInt (wrapInt64 (now.Unix * 1000))) ∧
    (-(2 ^ 63) ≤ now.Unix * 1000 ∧ now.Unix * 1000 < 2 ^ 63 →
      mapGet? (orderCreateParams s orderId body amount now) (lit "time")
        = some (formatInt (now.Unix * 1000))) ∧
    mapGet? (orderCreateParams s orderId body amount now) (lit "app_key") = some s.appKey ∧
    mapGet? (orderCreateParams s orderId body amount now) (lit "body") = some body ∧
    mapGet? (orderCreateParams s orderId body amount now) (lit "return_url")
      = some s.returnUrl ∧
    mapGet? (orderCreateParams s orderId body amount now) (lit "notify_url")
      = some s.notifyUrl ∧
    mapGet? (orderCreateParams s orderId body amount now) (lit "sign")
      = some (signParams (mapDelete (orderCreateParams s orderId body amount now) (lit "sign"))
          s.appSecret) ∧
    mapGet? (orderCreateParams s orderId body amount now) (lit "sign")
      = some (signParams (orderCreateParams s orderId body amount now) s.appSecret) := by
  have hget : ∀ {k v : GoString}, (k, v) ∈ orderCreateParams s orderId body amount now →
      mapGet? (orderCreateParams s orderId body amount now) k = some v :=
    fun h => mapGet?_orderCreateParams s orderId body amount now h
  have hmem : ∀ {k v : GoString}, (k, v) ∈ orderCreateLiteral s orderId body amount now →
      (k, v) ∈ orderCreateParams s orderId body amount now := by
    intro k v h
    rw [orderCreateParams_eq]
    exact List.mem_append_left _ h
  have htime : mapGet? (orderCreateParams s orderId body amount now) (lit "time")
      = some (formatInt (wrapInt64 (now.Unix * 1000))) :=
    hget (hmem (by simp [orderCreateLiteral]))
  have hdel : mapDelete (orderCreateParams s orderId body amount now) (lit "sign")
      = orderCreateLiteral s orderId body amount now := by
    rw [orderCreateParams_eq]
    exact mapDelete_append_of_not_mem _ (sign_not_mem_orderCreateLiteral s orderId body amount now)
  have hsig : signParams (orderCreateParams s orderId body amount now) s.appSecret
      = signParams (orderCreateLiteral s orderId body amount now) s.appSecret := by
    rw [orderCreateParams_eq]
    simp only [signParams, signPlain_append_sign_drop]
  have hsign : mapGet? (orderCreateParams s orderId body amount now) (lit "sign")
      = some (signParams (orderCreateLiteral s orderId body amount now) s.appSecret) := by
    apply hget
    rw [orderCreateParams_eq]
    exact List.mem_append_right _ (List.mem_singleton_self _)
  refine ⟨by rw [mapKeys_orderCreateParams], hget (hmem (by simp [orderCreateLiteral])),
    hget (hmem (by simp [orderCreateLiteral])), hget (hmem (by simp [orderCreateLiteral])),
    htime, ?_, hget (hmem (by simp [orderCreateLiteral])),
    hget (hmem (by simp [orderCreateLiteral])), hget (hmem (by simp [orderCreateLiteral])),
    hget (hmem (by simp [orderCreateLiteral])), ?_, ?_⟩
  · intro hr
    rw [htime, wrapInt64_of_inRange hr.1 hr.2]
  · rw [hdel, hsign]
  · rw [hsig, hsign]

/-! ## Strings that the JSON encoder leaves as they are -/

theorem utf8ValidAux_of_ascii (s : GoString) (h : ∀ b ∈ s, b.toNat < 0x80) :
    utf8ValidAux 0 s = true := by
  induction s with
  | nil => rfl
  | cons b rest ih =>
    have hb : b.toNat < 0x80 := h b (List.mem_cons_self _ _)
    have hlen : utf8SeqLen (b :: rest) = some 1 := by simp [utf8SeqLen, hb]
    simp only [utf8ValidAux, hlen]
    exact ih (fun c hc => h c (List.mem_cons_of_mem _ hc))

theorem utf8Valid_of_ascii {s : GoString} (h : ∀ b ∈ s, b.toNat < 0x80) :
    utf8Valid s = true :=
  utf8ValidAux_of_ascii s h

theorem digitChar_ascii : ∀ d, d < 10 → (Nat.digitChar d).toNat < 0x80 := by decide

theorem toDigitsCore_ascii (fuel n : Nat) (ds : List Char)
    (h : ∀ c ∈ ds, c.toNat < 0x80) : ∀ c ∈ Nat.toDigitsCore 10 fuel n ds, c.toNat < 0x80 := by
  induction fuel generalizing n ds with
  | zero => simpa [Nat.toDigitsCore] using h
  | succ fuel ih =>
    have hd : (Nat.digitChar (n % 10)).toNat < 0x80 :=
      digitChar_ascii _ (Nat.mod_lt _ (by decide))
    have hcons : ∀ c ∈ Nat.digitChar (n % 10) :: ds, c.toNat < 0x80 := by
      intro c hc
      rcases List.mem_cons.mp hc with rfl | hc
      · exact hd
      · exact h c hc
    simp only [Nat.toDigitsCore]
    split_ifs
    · exact hcons
    · exact ih _ _ hcons

theorem natDigits_ascii (n : Nat) : ∀ b ∈ natDigits n, b.toNat < 0x80 := by
  intro b hb
  simp only [natDigits, List.mem_map] at hb
  obtain ⟨c, hc, rfl⟩ := hb
  have hlt := toDigitsCore_ascii (n + 1) n [] (by simp) c hc
  rw [toNat_ofNat_of_lt (by omega)]
  exact hlt

theorem formatInt_ascii (n : Int) : ∀ b ∈ formatInt n, b.toNat < 0x80 := by
  intro b hb
  unfold formatInt at hb
  split_ifs at hb
  · rcases List.mem_cons.mp hb with rfl | hb
    · decide
    · exact natDigits_ascii _ b hb
  · exact natDigits_ascii _ b hb

theorem signParams_ascii (P : Params) (S : GoString) : ∀ b ∈ signParams P S, b.toNat < 0x80 := by
  intro b hb
  have h := hexEncodeToString_isLowerHex _ b hb
  unfold IsLowerHex at h
  omega

theorem jsonMarshalParams_of_valid {params : Params}
    (h : ∀ kv ∈ params, utf8Valid kv.1 = true ∧ utf8Valid kv.2 = true) :
    jsonMarshalParams params = params := by
  unfold jsonMarshalParams
  conv_rhs => rw [← List.map_id params]
  apply List.map_congr_left
  intro kv hkv
  obtain ⟨h1, h2⟩ := h kv hkv
  simp [jsonCoerceString_of_valid h1, jsonCoerceString_of_valid h2]

theorem orderCreateKeys_valid : ∀ k ∈ orderCreateKeys, utf8Valid k = true := by decide!

theorem orderCreateParams_valid (s : Service) (orderId body : GoString) (amount : Int)
    (now : Time) (h₁ : utf8Valid orderId = true) (h₂ : utf8Valid body = true)
    (h₃ : utf8Valid s.appKey = true) (h₄ : utf8Valid s.returnUrl = true)
    (h₅ : utf8Valid s.notifyUrl = true) :
    ∀ kv ∈ orderCreateParams s orderId body amount now,
      utf8Valid kv.1 = true ∧ utf8Valid kv.2 = true := by
  intro kv hkv
  have hkey : utf8Valid kv.1 = true := by
    apply orderCreateKeys_valid
    rw [← mapKeys_orderCreateParams s orderId body amount now]
    exact List.mem_map_of_mem Prod.fst hkv
  refine ⟨hkey, ?_⟩
  have hcny : utf8Valid (lit "CNY") = true := by decide
  rw [orderCreateParams_eq] at hkv
  simp only [orderCreateLiteral, List.mem_append, List.mem_cons, List.mem_singleton,
    List.not_mem_nil, or_false] at hkv
  rcases hkv with (rfl | rfl | rfl | rfl | rfl | rfl | rfl | rfl) | rfl
  · exact h₁
  · exact hcny
  · exact utf8Valid_of_ascii (formatInt_ascii _)
  · exact utf8Valid_of_ascii (formatInt_ascii _)
  · exact h₃
  · exact h₂
  · exact h₄
  · exact h₅
  · exact utf8Valid_of_ascii (signParams_ascii _ _)

/-! ## The request that `OrderCreate` sends -/

/-- C12 (as amended): `OrderCreate` posts to `payPath` the JSON object of a request map
that has exactly the nine keys `order_id, amount_type, amount, time, app_key, body,
return_url, notify_url, sign`, with `amount_type = "CNY"`, `amount` the base-10
rendering of the amount, `time` the base-10 rendering of 1000 times the current epoch
time in whole seconds (an `int64` product), and `sign` the `signParams` of the other
eight entries under `appSecret`, so that the map verifies under `appSecret`; the
request sent, in which the JSON encoder has coerced every string to valid UTF-8, is
that same map and verifies under `appSecret` whenever `orderId`, `body`, `appKey`,
`returnUrl` and `notifyUrl` are valid UTF-8. -/
theorem OrderCreate_request (s : Service) (orderId body : GoString) (amount : Int)
    (now : Time) :
    (∀ post : GoString → Params → Except GoString (HttpResponse PayResponse),
      s.OrderCreate orderId body amount now post
        = s.OrderCreate orderId body amount now (fun _ _ =>
            post payPath (jsonMarshalParams (orderCreateParams s orderId body amount now)))) ∧
    (∀ (post : GoString → Params → Except GoString (HttpResponse PayResponse)) (e : GoString),
      post payPath (jsonMarshalParams (orderCreateParams s orderId body amount now)) = .error e →
        s.OrderCreate orderId body amount now post = .returned none (some e)) ∧
    payPath = lit "https://bapi.app/api/v2/pay" ∧
    ((mapKeys (orderCreateParams s orderId body amount now)).Perm orderCreateKeys ∧
      mapGet? (orderCreateParams s orderId body amount now) (lit "order_id") = some orderId ∧
      mapGet? (orderCreateParams s orderId body amount now) (lit "amount_type")
        = some (lit "CNY") ∧
      mapGet? (orderCreateParams s orderId body amount now) (lit "amount")
        = some (formatInt amount) ∧
      mapGet? (orderCreateParams s orderId body amount now) (lit "time")
        = some (formatInt (wrapInt64 (now.Unix * 1000))) ∧
      (-(2 ^ 63) ≤ now.Unix * 1000 ∧ now.Unix * 1000 < 2 ^ 63 →
        mapGet? (orderCreateParams s orderId body amount now) (lit "time")
          = some (formatInt (now.Unix * 1000))) ∧
      mapGet? (orderCreateParams s orderId body amount now) (lit "app_key") = some s.appKey ∧
      mapGet? (orderCreateParams s orderId body amount now) (lit "body") = some body ∧
      mapGet? (orderCreateParams s orderId body amount now) (lit "return_url")
        = some s.returnUrl ∧
      mapGet? (orderCreateParams s orderId body amount now) (lit "notify_url")
        = some s.notifyUrl ∧
      mapGet? (orderCreateParams s orderId body amount now) (lit "sign")
        = some (signParams
            (mapDelete (orderCreateParams s orderId body amount now) (lit "sign"))
            s.appSecret) ∧
      mapGet? (orderCreateParams s orderId body amount now) (lit "sign")
        = some (signParams (orderCreateParams s orderId body amount now) s.appSecret)) ∧
    (utf8Valid orderId = true → utf8Valid body = true → utf8Valid s.appKey = true →
      utf8Valid s.returnUrl = true → utf8Valid s.notifyUrl = true →
        jsonMarshalParams (orderCreateParams s orderId body amount now)
          = orderCreateParams s orderId body amount now ∧
        mapGet? (jsonMarshalParams (orderCreateParams s orderId body amount now)) (lit "sign")
          = some (signParams (jsonMarshalParams (orderCreateParams s orderId body amount now))
              s.appSecret)) := by
  refine ⟨fun post => rfl, ?_, by decide, orderCreateParams_entries s orderId body amount now,
    ?_⟩
  · intro post e he
    simp only [Service.OrderCreate, he]
  · intro h₁ h₂ h₃ h₄ h₅
    have hw := jsonMarshalParams_of_valid
      (orderCreateParams_valid s orderId body amount now h₁ h₂ h₃ h₄ h₅)
    refine ⟨hw, ?_⟩
    rw [hw]
    exact (orderCreateParams_entries s orderId body amount now).2.2.2.2.2.2.2.2.2.2.2

/-- Witness for C12 (as amended): the call of `TestBAppPay` at a clock reading of
2019-06-18; its strings are valid UTF-8 and the product with 1000 fits an `int64`, so
the request sent is the map itself, carries the time `"1560849482000"` and verifies. -/
theorem OrderCreate_request_witness :
    (utf8Valid (lit "123456") = true ∧ utf8Valid (lit "BappTest") = true ∧
      utf8Valid testService.appKey = true ∧ utf8Valid testService.returnUrl = true ∧
      utf8Valid testService.notifyUrl = true) ∧
    (jsonMarshalParams (orderCreateParams testService (lit "123456") (lit "BappTest") 500
        (Time.mk 1560849482 796000000))
      = orderCreateParams testService (lit "123456") (lit "BappTest") 500
        (Time.mk 1560849482 796000000) ∧
     mapGet? (jsonMarshalParams (orderCreateParams testService (lit "123456") (lit "BappTest")
        500 (Time.mk 1560849482 796000000))) (lit "sign")
      = some (signParams (jsonMarshalParams (orderCreateParams testService (lit "123456")
          (lit "BappTest") 500 (Time.mk 1560849482 796000000))) testService.appSecret)) ∧
    mapGet? (orderCreateParams testService (lit "123456") (lit "BappTest") 500
        (Time.mk 1560849482 796000000)) (lit "time")
      = some (formatInt ((Time.mk 1560849482 796000000).Unix * 1000)) :=
  ⟨by decide!,
   (OrderCreate_request testService (lit "123456") (lit "BappTest") 500
      (Time.mk 1560849482 796000000)).2.2.2.2
      (by decide!) (by decide!) (by decide!) (by decide!) (by decide!),
   (OrderCreate_request testService (lit "123456") (lit "BappTest") 500
      (Time.mk 1560849482 796000000)).2.2.2.1.2.2.2.2.2.1 (by decide)⟩

/-- C12, counterexample: the call `OrderCreate("123456", "\xff", 500)` at the clock
reading 1560849482.796 s. The current epoch time in milliseconds is 1560849482796, but
the `time` entry is `"1560849482000"`; and the request sent carries the body
`U+FFFD` in place of the signed byte `0xff`, so it does not verify under `appSecret`:
a gateway that answers `code` 200 to a request that verifies and `code` 401 with
`msg` `"bad sign"` to any other makes `OrderCreate` return the error `bad sign`. -/
theorem OrderCreate_request_not_as_claimed :
    formatInt (Time.mk 1560849482 796000000).UnixMilli = lit "1560849482796" ∧
    mapGet? (orderCreateParams testService (lit "123456") [0xff] 500
        (Time.mk 1560849482 796000000)) (lit "time")
      = some (lit "1560849482000") ∧
    mapGet? (jsonMarshalParams (orderCreateParams testService (lit "123456") [0xff] 500
        (Time.mk 1560849482 796000000))) (lit "body")
      = some [0xEF, 0xBF, 0xBD] ∧
    mapGet? (jsonMarshalParams (orderCreateParams testService (lit "123456") [0xff] 500
        (Time.mk 1560849482 796000000))) (lit "sign")
      ≠ some (signParams (jsonMarshalParams (orderCreateParams testService (lit "123456")
          [0xff] 500 (Time.mk 1560849482 796000000))) testService.appSecret) ∧
    testService.OrderCreate (lit "123456") [0xff] 500 (Time.mk 1560849482 796000000)
        (fun _ js =>
          if mapGet? js (lit "sign") = some (signParams js testService.appSecret)
          then .ok ⟨200, .value ⟨200, lit "ok", ⟨[], []⟩⟩⟩
          else .ok ⟨200, .value ⟨401, lit "bad sign", ⟨[], []⟩⟩⟩)
      = .returned none (some (lit "bad sign")) := by
  decide!

/-! ## The query string of `OrderQuery` -/

theorem lit_order_id_eq : lit "order_id" ++ lit "=" = lit "order_id=" := by decide

theorem lit_time_eq : lit "time" ++ lit "=" = lit "time=" := by decide

theorem lit_app_key_eq : lit "app_key" ++ lit "=" = lit "app_key=" := by decide

/-- C13: whatever order the `range` loop visits the three entries in, the URL that
`OrderQuery` requests is `queryPath`, `?` and a query string that consists of the
three segments `order_id=<orderId>&`, `time=<t>&` and `app_key=<appKey>&`, each exactly
once in some order, followed last by `sign=` and the `signParams` of the three entries
under `appSecret`; `t` is the decimal rendering of the epoch time in seconds. -/
theorem OrderQuery_request (s : Service) (orderId : GoString) (now : Time)
    (order : Params → Params)
    (h : (order (orderQueryParams s orderId now)).Perm (orderQueryParams s orderId now)) :
    ∃ segs : List GoString,
      segs.Perm [lit "order_id=" ++ orderId ++ lit "&",
        lit "time=" ++ formatInt now.Unix ++ lit "&",
        lit "app_key=" ++ s.appKey ++ lit "&"] ∧
      orderQueryString s orderId now order
        = segs.flatten ++ lit "sign="
          ++ signParams [(lit "order_id", orderId), (lit "time", formatInt now.Unix),
              (lit "app_key", s.appKey)] s.appSecret ∧
      (∀ get : GoString → Except GoString (HttpResponse OrderDetailResponse),
        s.OrderQuery orderId now order get
          = s.OrderQuery orderId now order (fun _ =>
              get (queryPath ++ lit "?" ++ (segs.flatten ++ lit "sign="
                ++ signParams [(lit "order_id", orderId), (lit "time", formatInt now.Unix),
                    (lit "app_key", s.appKey)] s.appSecret)))) ∧
      (∀ (get : GoString → Except GoString (HttpResponse OrderDetailResponse)) (e : GoString),
        get (queryPath ++ lit "?" ++ (segs.flatten ++ lit "sign="
            ++ signParams [(lit "order_id", orderId), (lit "time", formatInt now.Unix),
                (lit "app_key", s.appKey)] s.appSecret)) = .error e →
          s.OrderQuery orderId now order get = .returned none (some e)) ∧
      queryPath = lit "https://bapi.app/api/v2/order" := by
  have hq : orderQueryString s orderId now order
      = ((order (orderQueryParams s orderId now)).map
          (fun kv => kv.1 ++ lit "=" ++ kv.2 ++ lit "&")).flatten ++ lit "sign="
        ++ signParams [(lit "order_id", orderId), (lit "time", formatInt now.Unix),
            (lit "app_key", s.appKey)] s.appSecret := by
    unfold orderQueryString
    simp only [foldl_append_eq_flatten, List.nil_append, List.append_assoc]
    rfl
  refine ⟨(order (orderQueryParams s orderId now)).map
    (fun kv => kv.1 ++ lit "=" ++ kv.2 ++ lit "&"), ?_, hq, ?_, ?_, by decide⟩
  · have hp := h.map (fun kv : GoString × GoString => kv.1 ++ lit "=" ++ kv.2 ++ lit "&")
    simpa [orderQueryParams, lit_order_id_eq, lit_time_eq, lit_app_key_eq] using hp
  · intro get
    rw [← hq]
    rfl
  · intro get e he
    rw [← hq] at he
    simp only [Service.OrderQuery, he]

/-- Witness for C13: the call of `TestBAppOrderQuery` with the entries visited in
reverse order. -/
theorem OrderQuery_request_witness :
    (List.reverse (orderQueryParams testService (lit "b9b71a4ed6559c9fd22443ffba19b5fb")
        (Time.mk 1560849482 796000000))).Perm
      (orderQueryParams testService (lit "b9b71a4ed6559c9fd22443ffba19b5fb")
        (Time.mk 1560849482 796000000)) ∧
    ∃ segs : List GoString,
      segs.Perm [lit "order_id=" ++ lit "b9b71a4ed6559c9fd22443ffba19b5fb" ++ lit "&",
        lit "time=" ++ formatInt (Time.mk 1560849482 796000000).Unix ++ lit "&",
        lit "app_key=" ++ testService.appKey ++ lit "&"] ∧
      orderQueryString testService (lit "b9b71a4ed6559c9fd22443ffba19b5fb")
          (Time.mk 1560849482 796000000) List.reverse
        = segs.flatten ++ lit "sign="
          ++ signParams [(lit "order_id", lit "b9b71a4ed6559c9fd22443ffba19b5fb"),
              (lit "time", formatInt (Time.mk 1560849482 796000000).Unix),
              (lit "app_key", testService.appKey)] testService.appSecret ∧
      (∀ (get : GoString → Except GoString (HttpResponse OrderDetailResponse)) (e : GoString),
        get (queryPath ++ lit "?" ++ (segs.flatten ++ lit "sign="
            ++ signParams [(lit "order_id", lit "b9b71a4ed6559c9fd22443ffba19b5fb"),
                (lit "time", formatInt (Time.mk 1560849482 796000000).Unix),
                (lit "app_key", testService.appKey)] testService.appSecret)) = .error e →
          testService.OrderQuery (lit "b9b71a4ed6559c9fd22443ffba19b5fb")
            (Time.mk 1560849482 796000000) List.reverse get = .returned none (some e)) :=
  ⟨List.reverse_perm _,
   (OrderQuery_request testService (lit "b9b71a4ed6559c9fd22443ffba19b5fb")
     (Time.mk 1560849482 796000000) List.reverse (List.reverse_perm _)).imp
     (fun _ hs => ⟨hs.1, hs.2.1, hs.2.2.2.1⟩)⟩

/-- The URL that `OrderQuery` requests in the call of `TestBAppOrderQuery` when the
entries are visited in the order of the map literal: a gateway that answers only that
URL is reached. -/
theorem orderQuery_url_example :
    testService.OrderQuery (lit "b9b71a4ed6559c9fd22443ffba19b5fb")
        (Time.mk 1560849482 796000000) id
        (fun url =>
          if url = lit "https://bapi.app/api/v2/order?order_id=b9b71a4ed6559c9fd22443ffba19b5fb"
              ++ lit "&time=1560849482&app_key=your_app_key"
              ++ lit "&sign=538553c5eafffe03d75ec51df07109ef"
          then .ok ⟨200, .value ⟨200, lit "ok", emptyOrderDetail⟩⟩
          else .error (lit "no such host"))
      = .returned (some emptyOrderDetail) none := by
  decide!

/-- The `time` of `OrderQuery` is in seconds where that of `OrderCreate` is in
milliseconds: at one clock reading the two values differ by the factor 1000. -/
theorem orderQuery_time_seconds :
    mapGet? (orderQueryParams testService (lit "1") (Time.mk 1560849482 796000000)) (lit "time")
      = some (lit "1560849482") ∧
    mapGet? (orderCreateParams testService (lit "1") (lit "") 1
        (Time.mk 1560849482 796000000)) (lit "time")
      = some (lit "1560849482000") := by
  decide!

/-! ## Response handling of `OrderCreate` and `OrderQuery` -/

theorem OrderCreate_response (s : Service) (orderId body : GoString) (amount : Int) (now : Time)
    (post : GoString → Params → Except GoString (HttpResponse PayResponse))
    (resp : HttpResponse PayResponse)
    (hp : post payPath (jsonMarshalParams (orderCreateParams s orderId body amount now))
      = .ok resp) :
    (∀ d, s.OrderCreate orderId body amount now post = .returned (some d) none ↔
      resp.StatusCode = 200 ∧ ∃ ret, resp.Body = .value ret ∧ ret.Code = 200 ∧ ret.Data = d) ∧
    (resp.StatusCode ≠ 200 →
      s.OrderCreate orderId body amount now post
        = .returned none (some (lit "StatusCode != 200"))) ∧
    (∀ ret, resp.StatusCode = 200 → resp.Body = .value ret → ret.Code ≠ 200 →
      s.OrderCreate orderId body amount now post = .returned none (some ret.Msg)) := by
  obtain ⟨status, decoded⟩ := resp
  simp only [Service.OrderCreate, hp]
  refine ⟨?_, ?_, ?_⟩
  · intro d
    by_cases hs : status = 200
    · cases decoded with
      | error err => simp [hs]
      | null => simp [hs]
      | value ret =>
        by_cases hc : ret.Code = 200
        · simp [hs, hc]
        · simp [hs, hc]
    · simp [hs]
  · intro hs
    simp [hs]
  · intro ret hs hb hc
    simp [hs, hb, hc]

theorem OrderQuery_response (s : Service) (orderId : GoString) (now : Time)
    (order : Params → Params)
    (get : GoString → Except GoString (HttpResponse OrderDetailResponse))
    (resp : HttpResponse OrderDetailResponse)
    (hg : get (queryPath ++ lit "?" ++ orderQueryString s orderId now order) = .ok resp) :
    (∀ d, s.OrderQuery orderId now order get = .returned (some d) none ↔
      resp.StatusCode = 200 ∧ ∃ ret, resp.Body = .value ret ∧ ret.Code = 200 ∧ ret.Data = d) ∧
    (resp.StatusCode ≠ 200 →
      s.OrderQuery orderId now order get = .returned none (some (lit "StatusCode != 200"))) ∧
    (∀ ret, resp.StatusCode = 200 → resp.Body = .value ret → ret.Code ≠ 200 →
      s.OrderQuery orderId now order get = .returned none (some ret.Msg)) := by
  obtain ⟨status, decoded⟩ := resp
  simp only [Service.OrderQuery, hg]
  refine ⟨?_, ?_, ?_⟩
  · intro d
    by_cases hs : status = 200
    · cases decoded with
      | error err => simp [hs]
      | null => simp [hs]
      | value ret =>
        by_cases hc : ret.Code = 200
        · simp [hs, hc]
        · simp [hs, hc]
    · simp [hs]
  · intro hs
    simp [hs]
  · intro ret hs hb hc
    simp [hs, hb, hc]

/-- C14 (as amended): with the HTTP response as input, `OrderCreate` and `OrderQuery`
return `(data, nil)` if and only if the HTTP status is 200, the body decodes to a
response record and its `code` is 200; for status 200 and any other `code` they return
a nil result with an error that carries the `msg` of the response; for any non-200
HTTP status they return a nil result with the fixed error text `StatusCode != 200`
(the body is not read, the `msg` is not carried). -/
theorem OrderCreate_OrderQuery_response (s : Service) (orderId body : GoString) (amount : Int)
    (now : Time) (post : GoString → Params → Except GoString (HttpResponse PayResponse))
    (resp : HttpResponse PayResponse) (order : Params → Params)
    (get : GoString → Except GoString (HttpResponse OrderDetailResponse))
    (qresp : HttpResponse OrderDetailResponse)
    (hp : post payPath (jsonMarshalParams (orderCreateParams s orderId body amount now))
      = .ok resp)
    (hg : get (queryPath ++ lit "?" ++ orderQueryString s orderId now order) = .ok qresp) :
    ((∀ d, s.OrderCreate orderId body amount now post = .returned (some d) none ↔
        resp.StatusCode = 200 ∧
          ∃ ret, resp.Body = .value ret ∧ ret.Code = 200 ∧ ret.Data = d) ∧
      (resp.StatusCode ≠ 200 →
        s.OrderCreate orderId body amount now post
          = .returned none (some (lit "StatusCode != 200"))) ∧
      (∀ ret, resp.StatusCode = 200 → resp.Body = .value ret → ret.Code ≠ 200 →
        s.OrderCreate orderId body amount now post = .returned none (some ret.Msg))) ∧
    ((∀ d, s.OrderQuery orderId now order get = .returned (some d) none ↔
        qresp.StatusCode = 200 ∧
          ∃ ret, qresp.Body = .value ret ∧ ret.Code = 200 ∧ ret.Data = d) ∧
      (qresp.StatusCode ≠ 200 →
        s.OrderQuery orderId now order get
          = .returned none (some (lit "StatusCode != 200"))) ∧
      (∀ ret, qresp.StatusCode = 200 → qresp.Body = .value ret → ret.Code ≠ 200 →
        s.OrderQuery orderId now order get = .returned none (some ret.Msg))) :=
  ⟨OrderCreate_response s orderId body amount now post resp hp,
   OrderQuery_response s orderId now order get qresp hg⟩

/-- Witness for C14 (as amended): a gateway that answers HTTP 200 with `code` 401 and
`msg` `"bad sign"` to both calls. -/
theorem OrderCreate_OrderQuery_response_witness :
    testService.OrderCreate (lit "123456") (lit "BappTest") 500 (Time.mk 1560849482 0)
        (fun _ _ => .ok ⟨200, .value ⟨401, lit "bad sign", ⟨[], []⟩⟩⟩)
      = .returned none (some (lit "bad sign")) ∧
    testService.OrderQuery (lit "123456") (Time.mk 1560849482 0) id
        (fun _ => .ok ⟨200, .value ⟨401, lit "bad sign", emptyOrderDetail⟩⟩)
      = .returned none (some (lit "bad sign")) :=
  ⟨(OrderCreate_OrderQuery_response testService (lit "123456") (lit "BappTest") 500
      (Time.mk 1560849482 0) (fun _ _ => .ok ⟨200, .value ⟨401, lit "bad sign", ⟨[], []⟩⟩⟩)
      ⟨200, .value ⟨401, lit "bad sign", ⟨[], []⟩⟩⟩ id
      (fun _ => .ok ⟨200, .value ⟨401, lit "bad sign", emptyOrderDetail⟩⟩)
      ⟨200, .value ⟨401, lit "bad sign", emptyOrderDetail⟩⟩ rfl rfl).1.2.2
      ⟨401, lit "bad sign", ⟨[], []⟩⟩ rfl rfl (by decide),
   (OrderCreate_OrderQuery_response testService (lit "123456") (lit "BappTest") 500
      (Time.mk 1560849482 0) (fun _ _ => .ok ⟨200, .value ⟨401, lit "bad sign", ⟨[], []⟩⟩⟩)
      ⟨200, .value ⟨401, lit "bad sign", ⟨[], []⟩⟩⟩ id
      (fun _ => .ok ⟨200, .value ⟨401, lit "bad sign", emptyOrderDetail⟩⟩)
      ⟨200, .value ⟨401, lit "bad sign", emptyOrderDetail⟩⟩ rfl rfl).2.2.2
      ⟨401, lit "bad sign", emptyOrderDetail⟩ rfl rfl (by decide)⟩

/-- C14, counterexample: on HTTP status 500 with a body whose `msg` is `"server busy"`,
both functions return the error text `StatusCode != 200`, in which the `msg` does not
occur. -/
theorem OrderCreate_OrderQuery_status_error :
    testService.OrderCreate (lit "123456") (lit "BappTest") 500 (Time.mk 1560849482 0)
        (fun _ _ => .ok ⟨500, .value ⟨500, lit "server busy", ⟨[], []⟩⟩⟩)
      = .returned none (some (lit "StatusCode != 200")) ∧
    testService.OrderQuery (lit "123456") (Time.mk 1560849482 0) id
        (fun _ => .ok ⟨500, .value ⟨500, lit "server busy", emptyOrderDetail⟩⟩)
      = .returned none (some (lit "StatusCode != 200")) ∧
    ¬ (lit "server busy" <:+: lit "StatusCode != 200") := by
  decide!

end Bapp
